import Mathlib

/-!
Verification development for the `shift` compositor repository.

The definitions below are shallow embeddings of the Rust sources:
* `Shift.RenderingLayer` and its operations embed
  `src/shift/src/rendering_layer/mod.rs` (the rendering-layer state machine);
* `Shift.TabMessageFrame` embeds `src/tab-protocol/src/message_frame.rs`
  (wire framing), with strings represented as their UTF-8 byte lists;
* `Shift.env_bool` embeds `src/shift/src/input_layer/mod.rs`;
* `Shift.FramePresenter` embeds `src/shift/src/presenter.rs` together with
  `resolve_transition` from `src/shift/src/animations/mod.rs`.

Rust `HashMap`s are embedded as association lists with insert-replaces
semantics (`Shift.ainsert`), `HashMap` key sets / `Vec` sets as lists, and
the mpsc channels as explicit event lists returned by each handler.
-/

namespace Shift

/-- Association-list lookup, the embedding of `HashMap::get`. -/
def alookup {α β : Type} [DecidableEq α] : List (α × β) → α → Option β
  | [], _ => none
  | (k, v) :: rest, key => if k = key then some v else alookup rest key

/-- Association-list insert-or-replace, the embedding of `HashMap::insert`. -/
def ainsert {α β : Type} [DecidableEq α] (key : α) (v : β) (m : List (α × β)) :
    List (α × β) :=
  (key, v) :: m.filter (fun p => p.1 ≠ key)

/-- Set-like insert, the embedding of inserting a key into a `HashMap`
whose value is irrelevant to the model (the key set only). -/
def sinsert {α : Type} [DecidableEq α] (x : α) (s : List α) : List α :=
  if x ∈ s then s else x :: s

/-- `MonitorId` (opaque identifier, `src/shift/src/monitor/mod.rs`). -/
abbrev MonitorId := Nat

/-- `SessionId` (opaque identifier, `src/shift/src/sessions`). -/
abbrev SessionId := Nat

/-- `BufferSlot` from `rendering_layer/mod.rs`: the two-buffer swapchain. -/
inductive BufferSlot
  | Zero
  | One
  deriving DecidableEq, Repr

/-- `SlotKey` from `rendering_layer/mod.rs`. -/
structure SlotKey where
  monitor_id : MonitorId
  session_id : SessionId
  buffer : BufferSlot
  deriving DecidableEq, Repr

/-- `MonitorSurfaceState` from `rendering_layer/mod.rs`. -/
structure MonitorSurfaceState where
  current_buffer : Option BufferSlot := none
  pending_buffer : Option BufferSlot := none
  deriving DecidableEq, Repr

/-- `DeferredRelease` from `rendering_layer/mod.rs`. -/
structure DeferredRelease where
  monitor_id : MonitorId
  session_id : SessionId
  buffer : BufferSlot
  deriving DecidableEq, Repr

/-- `SlotOwner` from `rendering_layer/mod.rs`. -/
inductive SlotOwner
  | Client
  | Shift
  deriving DecidableEq, Repr

/-- The renderer events relevant to the rendering-layer claims
(`src/shift/src/comms/render2server.rs`). -/
inductive RenderEvt
  | BufferRequestAck (session_id : SessionId) (monitor_id : MonitorId)
      (buffer : BufferSlot)
  | BufferRequestRejected (session_id : SessionId) (monitor_id : MonitorId)
      (buffer : BufferSlot) (reason : String)
  | BufferConsumed (session_id : SessionId) (monitor_id : MonitorId)
      (buffer : BufferSlot)
  deriving DecidableEq, Repr

/-- The render commands (`src/shift/src/comms/server2render.rs`).
`FramebufferLink` carries the externally determined outcomes of the DRM
interaction: whether the named monitor was found among the DRM monitors
(covering the id-parse and monitor-scan failures) and which of the two
dma-bufs imported successfully. -/
inductive RenderCmd
  | Shutdown
  | FramebufferLink (monitor_id : MonitorId) (session_id : SessionId)
      (found_monitor : Bool) (imported : List BufferSlot)
  | SetActiveSession (session_id : Option SessionId)
  | SessionRemoved (session_id : SessionId)
  | SwapBuffers (monitor_id : MonitorId) (session_id : SessionId)
      (buffer : BufferSlot) (acquire_fence : Bool)
  deriving DecidableEq, Repr

/-- The rendering-layer state, the fields of `RenderingLayer` in
`rendering_layer/mod.rs` that the state machine mutates. The slot table
`slots : HashMap<SlotKey, SkiaDmaBufTexture>` is embedded as its key set
(the texture payloads are opaque GPU handles); `fence_tasks` likewise as
the set of slot keys with a live fence task. -/
structure RenderingLayer where
  known_monitors : List MonitorId
  monitor_state : List ((MonitorId × SessionId) × MonitorSurfaceState)
  slots : List SlotKey
  slot_ownership : List (SlotKey × SlotOwner)
  fence_tasks : List SlotKey
  deferred_releases : List DeferredRelease
  current_session : Option SessionId
  deriving DecidableEq, Repr

/-- The state right after `RenderingLayer::run` records the `Started`
monitor set: every table empty, `known_monitors` the discovered set. -/
def initState (monitors : List MonitorId) : RenderingLayer where
  known_monitors := monitors
  monitor_state := []
  slots := []
  slot_ownership := []
  fence_tasks := []
  deferred_releases := []
  current_session := none

/-- `RenderingLayer::queue_buffer_release`. -/
def queue_buffer_release (st : RenderingLayer) (monitor_id : MonitorId)
    (session_id : SessionId) (buffer : BufferSlot) : RenderingLayer :=
  if st.deferred_releases.any (fun item =>
      item.monitor_id = monitor_id ∧ item.session_id = session_id ∧
        item.buffer = buffer) then
    st
  else
    { st with deferred_releases :=
        st.deferred_releases ++ [⟨monitor_id, session_id, buffer⟩] }

/-- `RenderingLayer::cancel_fence_wait`: drop the task-table entry (the
scheduler-side cancellation suppresses the callback). -/
def cancel_fence_wait (st : RenderingLayer) (key : SlotKey) : RenderingLayer :=
  { st with fence_tasks := st.fence_tasks.filter (fun k => k ≠ key) }

/-- `RenderingLayer::spawn_acquire_fence_waiter`: on the task-key set this
either keeps the existing task (reschedule) or inserts a fresh one; both
paths leave `key` present. -/
def spawn_acquire_fence_waiter (st : RenderingLayer) (key : SlotKey) :
    RenderingLayer :=
  if key ∈ st.fence_tasks then st
  else { st with fence_tasks := key :: st.fence_tasks }

/-- `RenderingLayer::cleanup_session_slots`. -/
def cleanup_session_slots (st : RenderingLayer) (session_id : SessionId) :
    RenderingLayer :=
  { st with
    slots := st.slots.filter (fun key => key.session_id ≠ session_id)
    slot_ownership :=
      st.slot_ownership.filter (fun p => p.1.session_id ≠ session_id)
    monitor_state := st.monitor_state.filter (fun p => p.1.2 ≠ session_id)
    deferred_releases :=
      st.deferred_releases.filter (fun item => item.session_id ≠ session_id)
    fence_tasks :=
      st.fence_tasks.filter (fun key => key.session_id ≠ session_id) }

/-- `RenderingLayer::cleanup_monitor_slots` (the caller, `sync_monitors`,
removes the `monitor_state` entries itself). -/
def cleanup_monitor_slots (st : RenderingLayer) (monitor_id : MonitorId) :
    RenderingLayer :=
  { st with
    slots := st.slots.filter (fun key => key.monitor_id ≠ monitor_id)
    slot_ownership :=
      st.slot_ownership.filter (fun p => p.1.monitor_id ≠ monitor_id)
    deferred_releases :=
      st.deferred_releases.filter (fun item => item.monitor_id ≠ monitor_id)
    fence_tasks :=
      st.fence_tasks.filter (fun key => key.monitor_id ≠ monitor_id) }

/-- The body of the import loop of `RenderingLayer::import_framebuffers`:
install one imported slot with owner `Client`. -/
def install_slot (monitor_id : MonitorId) (session_id : SessionId)
    (acc : RenderingLayer) (slot : BufferSlot) : RenderingLayer :=
  let key : SlotKey := ⟨monitor_id, session_id, slot⟩
  { acc with
    slots := sinsert key acc.slots
    slot_ownership := ainsert key .Client acc.slot_ownership }

/-- `RenderingLayer::import_framebuffers`: when the monitor is found, each
successfully imported slot is installed in the slot table with owner
`Client`. -/
def import_framebuffers (st : RenderingLayer) (monitor_id : MonitorId)
    (session_id : SessionId) (found_monitor : Bool)
    (imported : List BufferSlot) : RenderingLayer :=
  if ¬ found_monitor then st
  else imported.foldl (install_slot monitor_id session_id) st

/-- The accepted branch of the `SwapBuffers` arm of
`RenderingLayer::handle_command` (`rendering_layer/mod.rs:715-752`),
reached once `monitor_known && slot_known` holds. -/
def swap_accept (st : RenderingLayer) (monitor_id : MonitorId)
    (session_id : SessionId) (slot : BufferSlot)
    (has_acquire_fence : Bool) : RenderingLayer :=
  let slot_key : SlotKey := ⟨monitor_id, session_id, slot⟩
  let st1 :=
    match alookup st.monitor_state (monitor_id, session_id) with
    | some state =>
      match state.pending_buffer with
      | some pending =>
        let pending_key : SlotKey := ⟨monitor_id, session_id, pending⟩
        if pending_key ≠ slot_key then
          queue_buffer_release (cancel_fence_wait st pending_key)
            monitor_id session_id pending
        else st
      | none => st
    | none => st
  let st2 :=
    if has_acquire_fence then spawn_acquire_fence_waiter st1 slot_key
    else cancel_fence_wait st1 slot_key
  let state := (alookup st2.monitor_state (monitor_id, session_id)).getD
    ⟨none, none⟩
  let previous := state.current_buffer
  let st3 := { st2 with
    monitor_state := ainsert (monitor_id, session_id)
      { state with pending_buffer := some slot } st2.monitor_state
    slot_ownership := ainsert slot_key .Shift st2.slot_ownership }
  if has_acquire_fence then st3
  else
    let st3a := { st3 with
      monitor_state := ainsert (monitor_id, session_id)
        ⟨some slot, none⟩ st3.monitor_state }
    match previous with
    | some prev =>
      if prev ≠ slot then
        queue_buffer_release st3a monitor_id session_id prev
      else st3a
    | none => st3a

/-- `RenderingLayer::handle_command`, returning the new state and the
events the handler emits (in order). The `Shutdown` arm also stops the
loop in the source; the loop itself is not part of the state. -/
def handle_command (st : RenderingLayer) (cmd : RenderCmd) :
    RenderingLayer × List RenderEvt :=
  match cmd with
  | .Shutdown => (st, [])
  | .FramebufferLink monitor_id session_id found_monitor imported =>
    (import_framebuffers st monitor_id session_id found_monitor imported, [])
  | .SetActiveSession session_id =>
    ({ st with current_session := session_id }, [])
  | .SessionRemoved session_id =>
    let st1 := cleanup_session_slots st session_id
    (if st1.current_session = some session_id then
      { st1 with current_session := none }
    else st1, [])
  | .SwapBuffers monitor_id session_id buffer acquire_fence =>
    let monitor_known := monitor_id ∈ st.known_monitors
    let slot_key : SlotKey := ⟨monitor_id, session_id, buffer⟩
    let slot_known := slot_key ∈ st.slots
    if ¬ monitor_known ∨ ¬ slot_known then
      (st, [.BufferRequestRejected session_id monitor_id buffer
        (if ¬ monitor_known then "unknown_monitor" else "unlinked_buffer")])
    else
      (swap_accept st monitor_id session_id buffer acquire_fence,
        [.BufferRequestAck session_id monitor_id buffer])

/-- `RenderingLayer::handle_fence_event` for `FenceEvent::Signaled`. -/
def handle_fence_event (st : RenderingLayer) (key : SlotKey) :
    RenderingLayer :=
  let st0 := { st with fence_tasks := st.fence_tasks.filter (fun k => k ≠ key) }
  match alookup st0.monitor_state (key.monitor_id, key.session_id) with
  | some state =>
    if state.pending_buffer = some key.buffer then
      let previous := state.current_buffer
      let st1 := { st0 with
        monitor_state := ainsert (key.monitor_id, key.session_id)
          { state with
            current_buffer := some key.buffer
            pending_buffer := none } st0.monitor_state }
      match previous with
      | some prev =>
        if prev ≠ key.buffer then
          queue_buffer_release st1 key.monitor_id key.session_id prev
        else st1
      | none => st1
    else st0
  | none => st0

/-- The body of the drain loop of
`RenderingLayer::process_deferred_releases`: hand one slot back to
`Client`. -/
def release_deferred (acc : RenderingLayer) (item : DeferredRelease) :
    RenderingLayer :=
  { acc with slot_ownership := (ainsert
      ⟨item.monitor_id, item.session_id, item.buffer⟩
      SlotOwner.Client acc.slot_ownership) }

/-- `RenderingLayer::process_deferred_releases`: drain the queue in order,
handing each slot back to `Client` and emitting its `BufferConsumed`. -/
def process_deferred_releases (st : RenderingLayer) :
    RenderingLayer × List RenderEvt :=
  let items := st.deferred_releases
  (items.foldl release_deferred { st with deferred_releases := [] },
    items.map (fun item =>
      .BufferConsumed item.session_id item.monitor_id item.buffer))

/-- The per-removed-monitor eviction inside `RenderingLayer::sync_monitors`:
drop the monitor's `monitor_state` rows and clean up its slots. -/
def drop_monitor (acc : RenderingLayer) (removed_id : MonitorId) :
    RenderingLayer :=
  cleanup_monitor_slots
    { acc with monitor_state :=
        acc.monitor_state.filter (fun p => p.1.1 ≠ removed_id) }
    removed_id

/-- `RenderingLayer::sync_monitors`, given the monitor set currently
reported by DRM: every known monitor that disappeared is evicted. -/
def sync_monitors (st : RenderingLayer) (current : List MonitorId) :
    RenderingLayer :=
  let removed := st.known_monitors.filter (fun id => id ∉ current)
  { removed.foldl drop_monitor st with known_monitors := current }

/-- One externally triggered transition of the rendering layer: a control
command, a fence-signal delivery, the deferred-release pass of a page
flip, or the hot-plug reconciliation. -/
inductive Step
  | cmd (c : RenderCmd)
  | fence (key : SlotKey)
  | flip
  | hotplug (current : List MonitorId)
  deriving DecidableEq, Repr

/-- Apply one step, returning the new state and the emitted events. -/
def applyStep (st : RenderingLayer) : Step → RenderingLayer × List RenderEvt
  | .cmd c => handle_command st c
  | .fence key => (handle_fence_event st key, [])
  | .flip => process_deferred_releases st
  | .hotplug current => (sync_monitors st current, [])

/-- Run a sequence of steps, keeping only the final state. -/
def runState (st : RenderingLayer) : List Step → RenderingLayer
  | [] => st
  | s :: rest => runState (applyStep st s).1 rest

/-- Run a sequence of steps, collecting the emitted events in order. -/
def runEvents (st : RenderingLayer) : List Step → RenderingLayer × List RenderEvt
  | [] => (st, [])
  | s :: rest =>
    let r := applyStep st s
    let r2 := runEvents r.1 rest
    (r2.1, r.2 ++ r2.2)

/-!
## Wire framing (`src/tab-protocol/src/message_frame.rs`)

Strings are embedded as their UTF-8 byte lists (`List Nat`, each entry a
byte).  `String::from_utf8` becomes a byte-level UTF-8 validity check,
`str::trim_end` a byte-level strip of trailing Unicode-whitespace
characters, and `str::trim_end_matches('\n')` a strip of trailing `0x0A`
bytes.
-/

/-- A UTF-8 continuation byte (`0x80..=0xBF`). -/
def isCont (b : Nat) : Bool := 0x80 ≤ b && b ≤ 0xBF

/-- Byte-level UTF-8 validity, the check performed by
`String::from_utf8` in `TabMessageFrame::from_lines`. -/
def utf8Valid : List Nat → Bool
  | [] => true
  | b :: rest =>
    if b ≤ 0x7F then utf8Valid rest
    else
      match rest with
      | [] => false
      | c1 :: r1 =>
        if 0xC2 ≤ b && b ≤ 0xDF then isCont c1 && utf8Valid r1
        else
          match r1 with
          | [] => false
          | c2 :: r2 =>
            if b = 0xE0 then
              (0xA0 ≤ c1 && c1 ≤ 0xBF) && isCont c2 && utf8Valid r2
            else if (0xE1 ≤ b && b ≤ 0xEC) || b = 0xEE || b = 0xEF then
              isCont c1 && isCont c2 && utf8Valid r2
            else if b = 0xED then
              (0x80 ≤ c1 && c1 ≤ 0x9F) && isCont c2 && utf8Valid r2
            else
              match r2 with
              | [] => false
              | c3 :: r3 =>
                if b = 0xF0 then
                  (0x90 ≤ c1 && c1 ≤ 0xBF) && isCont c2 && isCont c3 &&
                    utf8Valid r3
                else if 0xF1 ≤ b && b ≤ 0xF3 then
                  isCont c1 && isCont c2 && isCont c3 && utf8Valid r3
                else if b = 0xF4 then
                  (0x80 ≤ c1 && c1 ≤ 0x8F) && isCont c2 && isCont c3 &&
                    utf8Valid r3
                else false

/-- Length in bytes of the last character of the reversed byte list when
that character has the Unicode `White_Space` property, `0` otherwise.
The multi-byte cases are the UTF-8 encodings of U+0085, U+00A0, U+1680,
U+2000..U+200A, U+2028, U+2029, U+202F, U+205F and U+3000. -/
def wsSuffixLen : List Nat → Nat
  | 9 :: _ => 1
  | 10 :: _ => 1
  | 11 :: _ => 1
  | 12 :: _ => 1
  | 13 :: _ => 1
  | 32 :: _ => 1
  | 0x85 :: 0xC2 :: _ => 2
  | 0xA0 :: 0xC2 :: _ => 2
  | 0x80 :: 0x9A :: 0xE1 :: _ => 3
  | c :: 0x80 :: 0xE2 :: _ =>
    if (0x80 ≤ c && c ≤ 0x8A) || c = 0xA8 || c = 0xA9 || c = 0xAF then 3
    else 0
  | 0x9F :: 0x81 :: 0xE2 :: _ => 3
  | 0x80 :: 0x80 :: 0xE3 :: _ => 3
  | _ => 0

/-- Strip whitespace characters from the front of a reversed byte list;
the fuel argument (instantiated with the list length) bounds the
iteration count. -/
def trimEndRevAux : Nat → List Nat → List Nat
  | 0, l => l
  | fuel + 1, l =>
    let n := wsSuffixLen l
    if n = 0 then l else trimEndRevAux fuel (l.drop n)

/-- Byte-level embedding of `str::trim_end` (used by
`TabMessageFrame::serialize` on the header line). -/
def trimEnd (l : List Nat) : List Nat :=
  (trimEndRevAux l.length l.reverse).reverse

/-- Byte-level embedding of `str::trim_end_matches('\n')` (used by
`TabMessageFrame::serialize` on the payload line). -/
def trimEndNl (l : List Nat) : List Nat :=
  (l.reverse.dropWhile (fun b => b = 10)).reverse

/-- The only `ProtocolError` that `TabMessageFrame::parse_from_bytes`
itself can produce (`String::from_utf8` failure). -/
inductive ProtocolError
  | Utf8
  deriving DecidableEq, Repr

/-- `TabMessageFrame` with the header and payload strings as UTF-8 byte
lists and the received fds as raw descriptor numbers. -/
structure TabMessageFrame where
  header : List Nat
  payload : Option (List Nat)
  fds : List Int
  deriving DecidableEq, Repr

/-- `TabMessageFrame::serialize`:
`format!("{header_line}\n{payload_line}\n")` at the byte level. -/
def serialize (f : TabMessageFrame) : List Nat :=
  trimEnd f.header ++ 10 ::
    ((match f.payload with
      | some p => trimEndNl p
      | none => [0, 0, 0, 0]) ++ [10])

/-- `bytes.iter().position(|b| *b == b'\n')`. -/
def findNl : List Nat → Option Nat
  | [] => none
  | b :: rest => if b = 10 then some 0 else (findNl rest).map (· + 1)

/-- `TabMessageFrame::from_lines`. -/
def from_lines (header_bytes payload_bytes : List Nat) (fds : List Int) :
    Except ProtocolError TabMessageFrame :=
  if utf8Valid header_bytes && utf8Valid payload_bytes then
    .ok
      { header := header_bytes
        payload :=
          if payload_bytes = [0, 0, 0, 0] then none else some payload_bytes
        fds := fds }
  else .error .Utf8

/-- `TabMessageFrame::parse_from_bytes`. -/
def parse_from_bytes (bytes : List Nat) (fds : List Int) :
    Except ProtocolError (Option (TabMessageFrame × Nat)) :=
  match findNl bytes with
  | none => .ok none
  | some first_nl =>
    match findNl (bytes.drop (first_nl + 1)) with
    | none => .ok none
    | some second_rel =>
      let second_nl := first_nl + 1 + second_rel
      let header_bytes := bytes.take first_nl
      let payload_bytes := (bytes.drop (first_nl + 1)).take second_rel
      let consumed := second_nl + 1
      (from_lines header_bytes payload_bytes fds).map
        (fun frame => some (frame, consumed))

/-!
## Input-layer environment configuration (`src/shift/src/input_layer/mod.rs`)
-/

/-- A character with the Unicode `White_Space` property (what Rust's
`str::trim` strips). -/
def isUniWs (c : Char) : Bool :=
  let n := c.toNat
  (9 ≤ n && n ≤ 13) || n = 32 || n = 0x85 || n = 0xA0 || n = 0x1680 ||
    (0x2000 ≤ n && n ≤ 0x200A) || n = 0x2028 || n = 0x2029 || n = 0x202F ||
    n = 0x205F || n = 0x3000

/-- `u8::to_ascii_lowercase` at the character level (ASCII letters only). -/
def asciiLower (c : Char) : Char :=
  if 'A' ≤ c && c ≤ 'Z' then Char.ofNat (c.toNat + 32) else c

/-- `v.trim().to_ascii_lowercase()` on the character list of `v`. -/
def normalizeEnvValue (v : String) : List Char :=
  (((v.toList.dropWhile isUniWs).reverse.dropWhile isUniWs).reverse).map
    asciiLower

/-- `env_bool` from `input_layer/mod.rs`, taking the environment
variable's value directly (`none` embeds `std::env::var` returning
`Err`). -/
def env_bool (value : Option String) (default : Bool) : Bool :=
  match value with
  | some v =>
    !(normalizeEnvValue v = "0".toList ∨ normalizeEnvValue v = "false".toList ∨
      normalizeEnvValue v = "off".toList ∨ normalizeEnvValue v = "no".toList)
  | none => default

/-- `InputLayer::init`: `tap_to_click = env_bool("SHIFT_INPUT_TAP_TO_CLICK", true)`. -/
def tap_to_click (value : Option String) : Bool := env_bool value true

/-- `InputLayer::init`: `tap_drag = env_bool("SHIFT_INPUT_TAP_DRAG", true)`. -/
def tap_drag (value : Option String) : Bool := env_bool value true

/-- `InputLayer::init`: `tap_drag_lock = env_bool("SHIFT_INPUT_TAP_DRAG_LOCK", false)`. -/
def tap_drag_lock (value : Option String) : Bool := env_bool value false

/-!
## Presenter transition state (`src/shift/src/presenter.rs`,
`src/shift/src/animations/mod.rs`)
-/

/-- The six static transition singletons of `animations/mod.rs`; Rust's
`std::ptr::eq` on the distinct statics coincides with equality of this
enumeration. -/
inductive TransitionKind
  | crossfade
  | slideLeft
  | slideRight
  | slideUp
  | slideDown
  | blur
  deriving DecidableEq, Repr

/-- `to_ascii_lowercase` on a whole string. -/
def toAsciiLower (s : String) : String :=
  String.mk (s.toList.map asciiLower)

/-- `resolve_transition` from `animations/mod.rs`. -/
def resolve_transition (name : String) : TransitionKind :=
  if toAsciiLower name = "slideleft" then .slideLeft
  else if toAsciiLower name = "slideright" then .slideRight
  else if toAsciiLower name = "slideup" then .slideUp
  else if toAsciiLower name = "slidedown" then .slideDown
  else if toAsciiLower name = "blur" then .blur
  else .crossfade

/-- Modelled from the spec: `AnimationStateTracker`
(`animations/animation.rs` is not among the sources); the spec describes
the timeline as a single named animation advanced by the per-call delta,
so the tracker is embedded as its accumulated elapsed time.  Progress
values are rationals (the claims under study involve no floating-point
rounding). -/
structure AnimationStateTracker where
  elapsed : ℚ
  deriving DecidableEq, Repr

/-- `ActiveTransition` from `presenter.rs`. -/
structure ActiveTransition where
  transition : TransitionKind
  state : AnimationStateTracker
  last_progress : ℚ
  deriving DecidableEq, Repr

/-- `ActiveTransition::new`: a fresh timeline from
`transition.timeline()` and `last_progress = 0`. -/
def ActiveTransition.new (transition : TransitionKind) : ActiveTransition where
  transition := transition
  state := ⟨0⟩
  last_progress := 0

/-- `ActiveTransition::frame`: advance the timeline by the progress delta
and record the progress. -/
def ActiveTransition.frame (a : ActiveTransition) (progress : ℚ) :
    ActiveTransition where
  transition := a.transition
  state := ⟨a.state.elapsed + (progress - a.last_progress)⟩
  last_progress := progress

/-- `RenderTransition` from the control-plane snapshot
(`tab_server::RenderTransition`): animation name, progress, previous
session. -/
structure RenderTransition where
  animation : String
  progress : ℚ
  previous_session_id : Option SessionId
  deriving DecidableEq, Repr

/-- `FramePresenter::transition_context`: resolves the per-frame
transition state, returning the new `active_transition` field and the
transition kind handed to the per-monitor render (`None` when no
transition is in flight). -/
def transition_context (active_transition : Option ActiveTransition)
    (transition : Option RenderTransition) :
    Option ActiveTransition × Option TransitionKind :=
  match transition with
  | none => (none, none)
  | some t =>
    if t.progress ≥ 1 then (none, none)
    else
      let resolved := resolve_transition t.animation
      let needs_reset :=
        match active_transition with
        | some existing => decide (¬ existing.transition = resolved)
        | none => true
      let active :=
        match active_transition, needs_reset with
        | some existing, false => existing
        | _, _ => ActiveTransition.new resolved
      (some (active.frame t.progress), some resolved)

/-!
## Association-list lemmas
-/

theorem alookup_filter_key {α β : Type} [DecidableEq α] (g : α → Bool)
    (m : List (α × β)) (k : α) :
    alookup (m.filter (fun p => g p.1)) k =
      if g k then alookup m k else none := by
  induction m with
  | nil => cases hg : g k <;> simp [alookup, hg]
  | cons p rest ih =>
    simp only [List.filter_cons]
    by_cases hpk : p.1 = k
    · cases hg : g k with
      | true =>
        have hgp : g p.1 = true := by rw [hpk, hg]
        simp [hgp, alookup, hpk, hg]
      | false =>
        have hgp : g p.1 = false := by rw [hpk, hg]
        simp only [hgp, Bool.false_eq_true, if_false, hg]
        simpa [hg] using ih
    · cases hgp : g p.1 with
      | true =>
        simp only [hgp, if_true, alookup, if_neg hpk, ih]
      | false =>
        simp only [hgp, Bool.false_eq_true, if_false, ih, alookup,
          if_neg hpk]

theorem alookup_ainsert_self {α β : Type} [DecidableEq α] (k : α) (v : β)
    (m : List (α × β)) : alookup (ainsert k v m) k = some v := by
  simp [ainsert, alookup]

theorem alookup_ainsert_ne {α β : Type} [DecidableEq α] {k k' : α} (v : β)
    (m : List (α × β)) (h : k' ≠ k) :
    alookup (ainsert k' v m) k = alookup m k := by
  show alookup ((k', v) :: m.filter (fun p => p.1 ≠ k')) k = alookup m k
  simp only [alookup, if_neg h]
  simpa [Ne.symm h] using alookup_filter_key (fun a => decide (a ≠ k')) m k

theorem alookup_none_of_forall {α β : Type} [DecidableEq α]
    {m : List (α × β)} {k : α} (h : ∀ p ∈ m, p.1 ≠ k) :
    alookup m k = none := by
  induction m with
  | nil => rfl
  | cons p rest ih =>
    have hp := h p (List.mem_cons_self p rest)
    simp only [alookup, if_neg hp]
    exact ih fun q hq => h q (List.mem_cons_of_mem p hq)

theorem mem_ainsert {α β : Type} [DecidableEq α] {p : α × β} {k : α} {v : β}
    {m : List (α × β)} (h : p ∈ ainsert k v m) : p = (k, v) ∨ p ∈ m := by
  rcases List.mem_cons.mp h with h' | h'
  · exact Or.inl h'
  · exact Or.inr (List.mem_of_mem_filter h')

theorem mem_sinsert {α : Type} [DecidableEq α] {x k : α} {s : List α}
    (h : x ∈ sinsert k s) : x = k ∨ x ∈ s := by
  by_cases hk : k ∈ s
  · simp only [sinsert, if_pos hk] at h; exact Or.inr h
  · simp only [sinsert, if_neg hk] at h
    exact List.mem_cons.mp h

theorem filter_ne_eq_self {α : Type} [DecidableEq α] {l : List α} {x : α}
    (h : x ∉ l) : l.filter (fun k => k ≠ x) = l := by
  rw [List.filter_eq_self]
  intro a ha
  simp only [decide_eq_true_eq]
  exact fun e => h (e ▸ ha)

/-- The owner entries recorded for a slot key (used to state that a key
has exactly one owner). -/
def ownersOf (m : List (SlotKey × SlotOwner)) (k : SlotKey) :
    List SlotOwner :=
  (m.filter (fun p => p.1 = k)).map (fun p => p.2)

theorem ownersOf_cons (p : SlotKey × SlotOwner)
    (l : List (SlotKey × SlotOwner)) (k : SlotKey) :
    ownersOf (p :: l) k =
      if p.1 = k then p.2 :: ownersOf l k else ownersOf l k := by
  by_cases hpk : p.1 = k <;> simp [ownersOf, List.filter_cons, hpk]

theorem ownersOf_filter_key (g : SlotKey → Bool)
    (m : List (SlotKey × SlotOwner)) (k : SlotKey) :
    ownersOf (m.filter (fun p => g p.1)) k =
      if g k then ownersOf m k else [] := by
  induction m with
  | nil => cases hg : g k <;> simp [ownersOf, hg]
  | cons p rest ih =>
    simp only [List.filter_cons]
    by_cases hpk : p.1 = k
    · cases hg : g k with
      | true =>
        have hgp : g p.1 = true := by rw [hpk, hg]
        simp only [hgp, if_true, ownersOf_cons, if_pos hpk, hg, ih]
      | false =>
        have hgp : g p.1 = false := by rw [hpk, hg]
        simp only [hgp, Bool.false_eq_true, if_false, hg]
        simpa [hg] using ih
    · cases hgp : g p.1 with
      | true =>
        simp only [hgp, if_true, ownersOf_cons, if_neg hpk, ih]
      | false =>
        simp only [hgp, Bool.false_eq_true, if_false, ih, ownersOf_cons,
          if_neg hpk]

theorem ownersOf_ainsert_self (k : SlotKey) (v : SlotOwner)
    (m : List (SlotKey × SlotOwner)) : ownersOf (ainsert k v m) k = [v] := by
  show ownersOf ((k, v) :: m.filter (fun p => p.1 ≠ k)) k = [v]
  rw [ownersOf_cons]
  have := ownersOf_filter_key (fun a => decide (a ≠ k)) m k
  simp at this
  simp [this]

theorem ownersOf_ainsert_ne {k k' : SlotKey} (v : SlotOwner)
    (m : List (SlotKey × SlotOwner)) (h : k' ≠ k) :
    ownersOf (ainsert k' v m) k = ownersOf m k := by
  show ownersOf ((k', v) :: m.filter (fun p => p.1 ≠ k')) k = ownersOf m k
  rw [ownersOf_cons, if_neg h]
  simpa [Ne.symm h] using ownersOf_filter_key (fun a => decide (a ≠ k')) m k

/-!
## Field-preservation and membership lemmas for the small operations
-/

theorem queue_buffer_release_slots (st : RenderingLayer) (m s : Nat)
    (b : BufferSlot) : (queue_buffer_release st m s b).slots = st.slots := by
  unfold queue_buffer_release; split <;> rfl

theorem queue_buffer_release_ownership (st : RenderingLayer) (m s : Nat)
    (b : BufferSlot) :
    (queue_buffer_release st m s b).slot_ownership = st.slot_ownership := by
  unfold queue_buffer_release; split <;> rfl

theorem queue_buffer_release_ms (st : RenderingLayer) (m s : Nat)
    (b : BufferSlot) :
    (queue_buffer_release st m s b).monitor_state = st.monitor_state := by
  unfold queue_buffer_release; split <;> rfl

theorem queue_buffer_release_fence (st : RenderingLayer) (m s : Nat)
    (b : BufferSlot) :
    (queue_buffer_release st m s b).fence_tasks = st.fence_tasks := by
  unfold queue_buffer_release; split <;> rfl

theorem queue_buffer_release_known (st : RenderingLayer) (m s : Nat)
    (b : BufferSlot) :
    (queue_buffer_release st m s b).known_monitors = st.known_monitors := by
  unfold queue_buffer_release; split <;> rfl

theorem queue_buffer_release_current (st : RenderingLayer) (m s : Nat)
    (b : BufferSlot) :
    (queue_buffer_release st m s b).current_session = st.current_session := by
  unfold queue_buffer_release; split <;> rfl

theorem queue_check_iff (st : RenderingLayer) (m s : Nat) (b : BufferSlot) :
    (st.deferred_releases.any (fun item =>
      item.monitor_id = m ∧ item.session_id = s ∧ item.buffer = b)) = true ↔
    (⟨m, s, b⟩ : DeferredRelease) ∈ st.deferred_releases := by
  simp only [List.any_eq_true, decide_eq_true_eq]
  constructor
  · rintro ⟨item, hmem, h1, h2, h3⟩
    cases item
    cases h1; cases h2; cases h3
    exact hmem
  · intro hmem
    exact ⟨_, hmem, rfl, rfl, rfl⟩

theorem queue_eq_self_of_mem (st : RenderingLayer) (m s : Nat)
    (b : BufferSlot) (h : (⟨m, s, b⟩ : DeferredRelease) ∈ st.deferred_releases) :
    queue_buffer_release st m s b = st := by
  unfold queue_buffer_release
  rw [if_pos ((queue_check_iff st m s b).mpr h)]

theorem mem_queue_self (st : RenderingLayer) (m s : Nat) (b : BufferSlot) :
    (⟨m, s, b⟩ : DeferredRelease) ∈
      (queue_buffer_release st m s b).deferred_releases := by
  unfold queue_buffer_release
  by_cases h : (st.deferred_releases.any (fun item =>
      item.monitor_id = m ∧ item.session_id = s ∧ item.buffer = b)) = true
  · rw [if_pos h]
    exact (queue_check_iff st m s b).mp h
  · rw [if_neg h]
    simp

theorem queue_deferred_mono (st : RenderingLayer) (m s : Nat) (b : BufferSlot)
    {d : DeferredRelease} (h : d ∈ st.deferred_releases) :
    d ∈ (queue_buffer_release st m s b).deferred_releases := by
  unfold queue_buffer_release
  split
  · exact h
  · simp [h]

theorem mem_queue_cases (st : RenderingLayer) (m s : Nat) (b : BufferSlot)
    {d : DeferredRelease}
    (h : d ∈ (queue_buffer_release st m s b).deferred_releases) :
    d = ⟨m, s, b⟩ ∨ d ∈ st.deferred_releases := by
  unfold queue_buffer_release at h
  split at h
  · exact Or.inr h
  · rcases List.mem_append.mp h with h' | h'
    · exact Or.inr h'
    · exact Or.inl (List.mem_singleton.mp h')

theorem queue_nodup (st : RenderingLayer) (m s : Nat) (b : BufferSlot)
    (h : st.deferred_releases.Nodup) :
    (queue_buffer_release st m s b).deferred_releases.Nodup := by
  unfold queue_buffer_release
  split
  · exact h
  · next hc =>
    have hnm : (⟨m, s, b⟩ : DeferredRelease) ∉ st.deferred_releases :=
      fun hm => hc ((queue_check_iff st m s b).mpr hm)
    simp [List.nodup_append, h, hnm]

theorem cancel_fence_wait_slots (st : RenderingLayer) (key : SlotKey) :
    (cancel_fence_wait st key).slots = st.slots := rfl

theorem cancel_fence_wait_ownership (st : RenderingLayer) (key : SlotKey) :
    (cancel_fence_wait st key).slot_ownership = st.slot_ownership := rfl

theorem cancel_fence_wait_ms (st : RenderingLayer) (key : SlotKey) :
    (cancel_fence_wait st key).monitor_state = st.monitor_state := rfl

theorem cancel_fence_wait_deferred (st : RenderingLayer) (key : SlotKey) :
    (cancel_fence_wait st key).deferred_releases = st.deferred_releases := rfl

theorem mem_cancel_fence_wait {st : RenderingLayer} {key k : SlotKey}
    (h : k ∈ (cancel_fence_wait st key).fence_tasks) :
    k ∈ st.fence_tasks ∧ k ≠ key := by
  have := List.mem_filter.mp h
  exact ⟨this.1, by simpa using this.2⟩

theorem spawn_slots (st : RenderingLayer) (key : SlotKey) :
    (spawn_acquire_fence_waiter st key).slots = st.slots := by
  unfold spawn_acquire_fence_waiter; split <;> rfl

theorem spawn_ownership (st : RenderingLayer) (key : SlotKey) :
    (spawn_acquire_fence_waiter st key).slot_ownership = st.slot_ownership := by
  unfold spawn_acquire_fence_waiter; split <;> rfl

theorem spawn_ms (st : RenderingLayer) (key : SlotKey) :
    (spawn_acquire_fence_waiter st key).monitor_state = st.monitor_state := by
  unfold spawn_acquire_fence_waiter; split <;> rfl

theorem spawn_deferred (st : RenderingLayer) (key : SlotKey) :
    (spawn_acquire_fence_waiter st key).deferred_releases
      = st.deferred_releases := by
  unfold spawn_acquire_fence_waiter; split <;> rfl

theorem mem_spawn_iff (st : RenderingLayer) (key k : SlotKey) :
    k ∈ (spawn_acquire_fence_waiter st key).fence_tasks ↔
      k = key ∨ k ∈ st.fence_tasks := by
  unfold spawn_acquire_fence_waiter
  split
  · next hmem =>
    constructor
    · exact Or.inr
    · rintro (rfl | h)
      · exact hmem
      · exact h
  · exact List.mem_cons

/-!
## Characterization of the accepted `SwapBuffers` branch
-/

theorem swap_accept_slots (st : RenderingLayer) (m s : Nat) (b : BufferSlot)
    (f : Bool) : (swap_accept st m s b f).slots = st.slots := by
  unfold swap_accept
  repeat' split
  all_goals simp [queue_buffer_release_slots, cancel_fence_wait, spawn_slots,
    spawn_acquire_fence_waiter]
  all_goals (repeat' split) <;> simp [queue_buffer_release_slots]

theorem swap_accept_known (st : RenderingLayer) (m s : Nat) (b : BufferSlot)
    (f : Bool) :
    (swap_accept st m s b f).known_monitors = st.known_monitors := by
  unfold swap_accept
  repeat' split
  all_goals simp [queue_buffer_release_known, cancel_fence_wait,
    spawn_acquire_fence_waiter]
  all_goals (repeat' split) <;> simp [queue_buffer_release_known]

theorem swap_accept_ownership (st : RenderingLayer) (m s : Nat)
    (b : BufferSlot) (f : Bool) :
    (swap_accept st m s b f).slot_ownership
      = ainsert ⟨m, s, b⟩ SlotOwner.Shift st.slot_ownership := by
  unfold swap_accept
  repeat' split
  all_goals simp [queue_buffer_release_ownership, queue_buffer_release_ms,
    cancel_fence_wait, spawn_acquire_fence_waiter]
  all_goals (repeat' split) <;> simp [queue_buffer_release_ownership]

theorem swap_accept_ms_nofence (st : RenderingLayer) (m s : Nat)
    (b : BufferSlot) :
    alookup (swap_accept st m s b false).monitor_state (m, s)
      = some ⟨some b, none⟩ := by
  unfold swap_accept
  simp only [Bool.false_eq_true, if_false]
  repeat' split
  all_goals
    simp [queue_buffer_release_ms, cancel_fence_wait, alookup_ainsert_self]

theorem swap_accept_fence_notmem (st : RenderingLayer) (m s : Nat)
    (b : BufferSlot) :
    (⟨m, s, b⟩ : SlotKey) ∉ (swap_accept st m s b false).fence_tasks := by
  intro hmem
  unfold swap_accept at hmem
  simp only [Bool.false_eq_true, if_false] at hmem
  repeat' split at hmem
  all_goals
    simp [queue_buffer_release_fence, cancel_fence_wait,
      List.mem_filter] at hmem

theorem swap_accept_deferred_prev (st : RenderingLayer) (m s : Nat)
    (b prev : BufferSlot)
    (hprev : ((alookup st.monitor_state (m, s)).getD
      ⟨none, none⟩).current_buffer = some prev)
    (hne : prev ≠ b) :
    (⟨m, s, prev⟩ : DeferredRelease) ∈
      (swap_accept st m s b false).deferred_releases := by
  unfold swap_accept
  cases hms : alookup st.monitor_state (m, s) with
  | none =>
    rw [hms] at hprev
    simp at hprev
  | some state =>
    rw [hms] at hprev
    simp only [Option.getD_some] at hprev
    cases hpend : state.pending_buffer with
    | none =>
      simp only [hms, hpend, Bool.false_eq_true, if_false,
        cancel_fence_wait_ms, Option.getD_some, hprev]
      rw [if_pos hne]
      exact mem_queue_self _ m s prev
    | some pending =>
      by_cases hpk : (⟨m, s, pending⟩ : SlotKey) = (⟨m, s, b⟩ : SlotKey)
      · simp only [hms, hpend, ne_eq, hpk, not_true_eq_false,
          Bool.false_eq_true, if_false, cancel_fence_wait_ms,
          Option.getD_some, hprev]
        rw [if_pos hne]
        exact mem_queue_self _ m s prev
      · simp only [hms, hpend, ne_eq, hpk, not_false_eq_true, if_true,
          Bool.false_eq_true, if_false, cancel_fence_wait_ms,
          queue_buffer_release_ms, Option.getD_some, hprev]
        rw [if_pos hne]
        exact mem_queue_self _ m s prev

theorem mem_ainsert_key {α β : Type} [DecidableEq α] {p : α × β} {k : α}
    {v : β} {m : List (α × β)} (h : p ∈ ainsert k v m) :
    p.1 = k ∨ p ∈ m := by
  rcases mem_ainsert h with rfl | h'
  · exact Or.inl rfl
  · exact Or.inr h'

theorem queue_deferred_sub (st : RenderingLayer) (m s : Nat) (b : BufferSlot)
    {d : DeferredRelease}
    (h : d ∈ (queue_buffer_release st m s b).deferred_releases) :
    (d.monitor_id = m ∧ d.session_id = s) ∨ d ∈ st.deferred_releases := by
  rcases mem_queue_cases st m s b h with rfl | h'
  · exact Or.inl ⟨rfl, rfl⟩
  · exact Or.inr h'

theorem swap_accept_ms (st : RenderingLayer) (m s : Nat) (b : BufferSlot)
    (f : Bool) :
    (swap_accept st m s b f).monitor_state
      = (if f then
          ainsert (m, s)
            { (alookup st.monitor_state (m, s)).getD ⟨none, none⟩ with
              pending_buffer := some b } st.monitor_state
        else
          ainsert (m, s) ⟨some b, none⟩
            (ainsert (m, s)
              { (alookup st.monitor_state (m, s)).getD ⟨none, none⟩ with
                pending_buffer := some b } st.monitor_state)) := by
  unfold swap_accept
  repeat' split
  all_goals
    try simp_all [queue_buffer_release_ms, cancel_fence_wait_ms, spawn_ms]
  all_goals repeat' split
  all_goals
    simp_all [queue_buffer_release_ms, cancel_fence_wait_ms, spawn_ms]

theorem swap_accept_ms_mem (st : RenderingLayer) (m s : Nat) (b : BufferSlot)
    (f : Bool) {p : (MonitorId × SessionId) × MonitorSurfaceState}
    (h : p ∈ (swap_accept st m s b f).monitor_state) :
    p.1 = (m, s) ∨ p ∈ st.monitor_state := by
  rw [swap_accept_ms] at h
  split at h
  · rcases mem_ainsert_key h with h1 | h1
    · exact Or.inl h1
    · exact Or.inr h1
  · rcases mem_ainsert_key h with h1 | h1
    · exact Or.inl h1
    · rcases mem_ainsert_key h1 with h2 | h2
      · exact Or.inl h2
      · exact Or.inr h2

theorem swap_accept_deferred_sub (st : RenderingLayer) (m s : Nat)
    (b : BufferSlot) (f : Bool) {d : DeferredRelease}
    (h : d ∈ (swap_accept st m s b f).deferred_releases) :
    (d.monitor_id = m ∧ d.session_id = s) ∨ d ∈ st.deferred_releases := by
  unfold swap_accept at h
  repeat' split at h
  all_goals
    try simp only [cancel_fence_wait_deferred, spawn_deferred,
      cancel_fence_wait_ms, queue_buffer_release_ms] at h
  all_goals repeat' split at h
  all_goals
    try simp only [cancel_fence_wait_deferred, spawn_deferred,
      cancel_fence_wait_ms, queue_buffer_release_ms] at h
  all_goals
    first
    | exact Or.inr h
    | (rcases queue_deferred_sub _ _ _ _ h with h1 | h1
       · exact Or.inl h1
       · first
         | exact Or.inr h1
         | (rcases queue_deferred_sub _ _ _ _ h1 with h2 | h2
            · exact Or.inl h2
            · exact Or.inr h2))

theorem swap_accept_fence_sub (st : RenderingLayer) (m s : Nat)
    (b : BufferSlot) (f : Bool) {k : SlotKey}
    (h : k ∈ (swap_accept st m s b f).fence_tasks) :
    k = ⟨m, s, b⟩ ∨ k ∈ st.fence_tasks := by
  unfold swap_accept cancel_fence_wait spawn_acquire_fence_waiter at h
  repeat' split at h
  all_goals
    try simp only [queue_buffer_release_fence] at h
  all_goals repeat' split at h
  all_goals
    try simp only [queue_buffer_release_fence] at h
  all_goals
    first
    | exact Or.inr h
    | exact Or.inr (List.mem_of_mem_filter h)
    | exact Or.inr (List.mem_of_mem_filter (List.mem_of_mem_filter h))
    | (rcases List.mem_cons.mp h with rfl | h2
       · exact Or.inl rfl
       · first
         | exact Or.inr h2
         | exact Or.inr (List.mem_of_mem_filter h2))

theorem swap_accept_deferred_nodup (st : RenderingLayer) (m s : Nat)
    (b : BufferSlot) (f : Bool) (h : st.deferred_releases.Nodup) :
    (swap_accept st m s b f).deferred_releases.Nodup := by
  unfold swap_accept
  repeat' split
  all_goals
    try simp only [cancel_fence_wait_deferred, spawn_deferred,
      cancel_fence_wait_ms, queue_buffer_release_ms]
  all_goals repeat' split
  all_goals
    try simp only [cancel_fence_wait_deferred, spawn_deferred,
      cancel_fence_wait_ms, queue_buffer_release_ms]
  all_goals
    first
    | exact h
    | exact queue_nodup _ _ _ _ h
    | (apply queue_nodup
       simp only [cancel_fence_wait_deferred, spawn_deferred]
       first
       | exact h
       | exact queue_nodup _ _ _ _ h)

theorem handle_fence_event_slots (st : RenderingLayer) (key : SlotKey) :
    (handle_fence_event st key).slots = st.slots := by
  unfold handle_fence_event
  repeat' split
  all_goals try simp only [queue_buffer_release_slots]
  all_goals repeat' split
  all_goals simp [queue_buffer_release_slots]

theorem handle_fence_event_ownership (st : RenderingLayer) (key : SlotKey) :
    (handle_fence_event st key).slot_ownership = st.slot_ownership := by
  unfold handle_fence_event
  repeat' split
  all_goals try simp only [queue_buffer_release_ownership]
  all_goals repeat' split
  all_goals simp [queue_buffer_release_ownership]

theorem handle_fence_event_known (st : RenderingLayer) (key : SlotKey) :
    (handle_fence_event st key).known_monitors = st.known_monitors := by
  unfold handle_fence_event
  repeat' split
  all_goals try simp only [queue_buffer_release_known]
  all_goals repeat' split
  all_goals simp [queue_buffer_release_known]

theorem handle_fence_event_ms_mem (st : RenderingLayer) (key : SlotKey)
    {p : (MonitorId × SessionId) × MonitorSurfaceState}
    (h : p ∈ (handle_fence_event st key).monitor_state) :
    p.1 = (key.monitor_id, key.session_id) ∨ p ∈ st.monitor_state := by
  unfold handle_fence_event at h
  repeat' split at h
  all_goals try simp only [queue_buffer_release_ms] at h
  all_goals repeat' split at h
  all_goals try simp only [queue_buffer_release_ms] at h
  all_goals
    first
    | exact Or.inr h
    | (rcases mem_ainsert_key h with h1 | h1
       · exact Or.inl h1
       · exact Or.inr h1)

theorem handle_fence_event_deferred_sub (st : RenderingLayer) (key : SlotKey)
    {d : DeferredRelease}
    (h : d ∈ (handle_fence_event st key).deferred_releases) :
    (d.monitor_id = key.monitor_id ∧ d.session_id = key.session_id) ∨
      d ∈ st.deferred_releases := by
  unfold handle_fence_event at h
  repeat' split at h
  all_goals try simp only [queue_buffer_release_ms] at h
  all_goals repeat' split at h
  all_goals
    first
    | exact Or.inr h
    | (rcases queue_deferred_sub _ _ _ _ h with h1 | h1
       · exact Or.inl h1
       · exact Or.inr h1)

theorem handle_fence_event_deferred_nodup (st : RenderingLayer)
    (key : SlotKey) (h : st.deferred_releases.Nodup) :
    (handle_fence_event st key).deferred_releases.Nodup := by
  unfold handle_fence_event
  repeat' split
  all_goals try simp only [queue_buffer_release_ms]
  all_goals repeat' split
  all_goals
    first
    | exact h
    | exact queue_nodup _ _ _ _ h

theorem handle_fence_event_fence_sub (st : RenderingLayer) (key : SlotKey)
    {k : SlotKey} (h : k ∈ (handle_fence_event st key).fence_tasks) :
    k ∈ st.fence_tasks := by
  unfold handle_fence_event at h
  repeat' split at h
  all_goals try simp only [queue_buffer_release_fence] at h
  all_goals repeat' split at h
  all_goals try simp only [queue_buffer_release_fence] at h
  all_goals exact List.mem_of_mem_filter h

theorem handle_fence_event_eq_self (st : RenderingLayer) (key : SlotKey)
    (hf : key ∉ st.fence_tasks)
    (hpend : ∀ state,
      alookup st.monitor_state (key.monitor_id, key.session_id) = some state →
      state.pending_buffer ≠ some key.buffer) :
    handle_fence_event st key = st := by
  unfold handle_fence_event
  cases hl : alookup st.monitor_state (key.monitor_id, key.session_id) with
  | none =>
    simp only [hl]
    rw [filter_ne_eq_self hf]
  | some state =>
    simp only [hl, if_neg (hpend state hl)]
    rw [filter_ne_eq_self hf]

/-!
## The deferred-release drain and the import loop
-/

theorem release_fold_slots (items : List DeferredRelease) :
    ∀ acc : RenderingLayer,
      (items.foldl release_deferred acc).slots = acc.slots := by
  induction items with
  | nil => intro acc; rfl
  | cons i t ih => intro acc; rw [List.foldl_cons, ih]; rfl

theorem release_fold_ms (items : List DeferredRelease) :
    ∀ acc : RenderingLayer,
      (items.foldl release_deferred acc).monitor_state = acc.monitor_state := by
  induction items with
  | nil => intro acc; rfl
  | cons i t ih => intro acc; rw [List.foldl_cons, ih]; rfl

theorem release_fold_fence (items : List DeferredRelease) :
    ∀ acc : RenderingLayer,
      (items.foldl release_deferred acc).fence_tasks = acc.fence_tasks := by
  induction items with
  | nil => intro acc; rfl
  | cons i t ih => intro acc; rw [List.foldl_cons, ih]; rfl

theorem release_fold_deferred (items : List DeferredRelease) :
    ∀ acc : RenderingLayer,
      (items.foldl release_deferred acc).deferred_releases
        = acc.deferred_releases := by
  induction items with
  | nil => intro acc; rfl
  | cons i t ih => intro acc; rw [List.foldl_cons, ih]; rfl

theorem release_fold_own_mem (items : List DeferredRelease) :
    ∀ (acc : RenderingLayer) {p : SlotKey × SlotOwner},
      p ∈ (items.foldl release_deferred acc).slot_ownership →
      (∃ d ∈ items,
        p.1 = (⟨d.monitor_id, d.session_id, d.buffer⟩ : SlotKey)) ∨
        p ∈ acc.slot_ownership := by
  induction items with
  | nil => intro acc p h; exact Or.inr h
  | cons i t ih =>
    intro acc p h
    rw [List.foldl_cons] at h
    rcases ih _ h with h1 | h1
    · obtain ⟨d, hd, hp⟩ := h1
      exact Or.inl ⟨d, List.mem_cons_of_mem _ hd, hp⟩
    · simp only [release_deferred] at h1
      rcases mem_ainsert_key h1 with h2 | h2
      · exact Or.inl ⟨i, List.mem_cons_self _ _, h2⟩
      · exact Or.inr h2

theorem release_fold_client_pres (items : List DeferredRelease) :
    ∀ (acc : RenderingLayer) {key : SlotKey},
      alookup acc.slot_ownership key = some .Client →
      alookup (items.foldl release_deferred acc).slot_ownership key
        = some .Client := by
  induction items with
  | nil => intro acc key h; exact h
  | cons i t ih =>
    intro acc key h
    rw [List.foldl_cons]
    apply ih
    show alookup (ainsert ⟨i.monitor_id, i.session_id, i.buffer⟩
      SlotOwner.Client acc.slot_ownership) key = some SlotOwner.Client
    by_cases hk : (⟨i.monitor_id, i.session_id, i.buffer⟩ : SlotKey) = key
    · rw [← hk, alookup_ainsert_self]
    · rw [alookup_ainsert_ne _ _ hk]
      exact h

theorem release_fold_client (items : List DeferredRelease) :
    ∀ (acc : RenderingLayer) {d : DeferredRelease}, d ∈ items →
      alookup (items.foldl release_deferred acc).slot_ownership
        ⟨d.monitor_id, d.session_id, d.buffer⟩ = some .Client := by
  induction items with
  | nil => intro acc d h; cases h
  | cons i t ih =>
    intro acc d h
    rw [List.foldl_cons]
    rcases List.mem_cons.mp h with rfl | h1
    · apply release_fold_client_pres
      show alookup (ainsert ⟨d.monitor_id, d.session_id, d.buffer⟩
        SlotOwner.Client acc.slot_ownership) _ = some SlotOwner.Client
      exact alookup_ainsert_self _ _ _
    · exact ih _ h1

theorem install_fold_ms (slots : List BufferSlot) (m s : Nat) :
    ∀ acc : RenderingLayer,
      (slots.foldl (install_slot m s) acc).monitor_state
        = acc.monitor_state := by
  induction slots with
  | nil => intro acc; rfl
  | cons i t ih => intro acc; rw [List.foldl_cons, ih]; rfl

theorem install_fold_fence (slots : List BufferSlot) (m s : Nat) :
    ∀ acc : RenderingLayer,
      (slots.foldl (install_slot m s) acc).fence_tasks = acc.fence_tasks := by
  induction slots with
  | nil => intro acc; rfl
  | cons i t ih => intro acc; rw [List.foldl_cons, ih]; rfl

theorem install_fold_deferred (slots : List BufferSlot) (m s : Nat) :
    ∀ acc : RenderingLayer,
      (slots.foldl (install_slot m s) acc).deferred_releases
        = acc.deferred_releases := by
  induction slots with
  | nil => intro acc; rfl
  | cons i t ih => intro acc; rw [List.foldl_cons, ih]; rfl

theorem install_fold_known (slots : List BufferSlot) (m s : Nat) :
    ∀ acc : RenderingLayer,
      (slots.foldl (install_slot m s) acc).known_monitors
        = acc.known_monitors := by
  induction slots with
  | nil => intro acc; rfl
  | cons i t ih => intro acc; rw [List.foldl_cons, ih]; rfl

theorem install_fold_slots_mem (slots : List BufferSlot) (m s : Nat) :
    ∀ (acc : RenderingLayer) {k : SlotKey},
      k ∈ (slots.foldl (install_slot m s) acc).slots →
      (k.monitor_id = m ∧ k.session_id = s) ∨ k ∈ acc.slots := by
  induction slots with
  | nil => intro acc k h; exact Or.inr h
  | cons i t ih =>
    intro acc k h
    rw [List.foldl_cons] at h
    rcases ih _ h with h1 | h1
    · exact Or.inl h1
    · simp only [install_slot] at h1
      rcases mem_sinsert h1 with rfl | h2
      · exact Or.inl ⟨rfl, rfl⟩
      · exact Or.inr h2

theorem install_fold_own_mem (slots : List BufferSlot) (m s : Nat) :
    ∀ (acc : RenderingLayer) {p : SlotKey × SlotOwner},
      p ∈ (slots.foldl (install_slot m s) acc).slot_ownership →
      (p.1.monitor_id = m ∧ p.1.session_id = s) ∨
        p ∈ acc.slot_ownership := by
  induction slots with
  | nil => intro acc p h; exact Or.inr h
  | cons i t ih =>
    intro acc p h
    rw [List.foldl_cons] at h
    rcases ih _ h with h1 | h1
    · exact Or.inl h1
    · simp only [install_slot] at h1
      rcases mem_ainsert_key h1 with h2 | h2
      · rw [h2]
        exact Or.inl ⟨rfl, rfl⟩
      · exact Or.inr h2

/-!
## Ownership exclusivity invariant
-/

/-- Every key in `slots` has exactly one owner entry in `own`. -/
def ownInv (slots : List SlotKey) (own : List (SlotKey × SlotOwner)) : Prop :=
  ∀ k ∈ slots, ∃ o : SlotOwner, ownersOf own k = [o]

/-- The ownership-exclusivity invariant of the rendering-layer state. -/
def OwnershipInv (st : RenderingLayer) : Prop :=
  ownInv st.slots st.slot_ownership

theorem ownInv_ainsert {slots : List SlotKey}
    {own : List (SlotKey × SlotOwner)} (k : SlotKey) (v : SlotOwner)
    (h : ownInv slots own) : ownInv slots (ainsert k v own) := by
  intro x hx
  by_cases hk : x = k
  · subst hk
    exact ⟨v, ownersOf_ainsert_self _ _ _⟩
  · obtain ⟨o, ho⟩ := h x hx
    refine ⟨o, ?_⟩
    rw [ownersOf_ainsert_ne _ _ (Ne.symm hk)]
    exact ho

theorem ownInv_insert_pair {slots : List SlotKey}
    {own : List (SlotKey × SlotOwner)} (k : SlotKey) (v : SlotOwner)
    (h : ownInv slots own) : ownInv (sinsert k slots) (ainsert k v own) := by
  intro x hx
  rcases mem_sinsert hx with rfl | hx'
  · exact ⟨v, ownersOf_ainsert_self _ _ _⟩
  · exact ownInv_ainsert k v h x hx'

theorem ownInv_filter (g : SlotKey → Bool) {slots : List SlotKey}
    {own : List (SlotKey × SlotOwner)} (h : ownInv slots own) :
    ownInv (slots.filter (fun k => g k)) (own.filter (fun p => g p.1)) := by
  intro x hx
  have hmem := List.mem_filter.mp hx
  obtain ⟨o, ho⟩ := h x hmem.1
  refine ⟨o, ?_⟩
  rw [ownersOf_filter_key, if_pos hmem.2, ho]

theorem install_fold_ownInv (slots : List BufferSlot) (m s : Nat) :
    ∀ acc : RenderingLayer, OwnershipInv acc →
      OwnershipInv (slots.foldl (install_slot m s) acc) := by
  induction slots with
  | nil => intro acc h; exact h
  | cons i t ih =>
    intro acc h
    rw [List.foldl_cons]
    exact ih _ (ownInv_insert_pair _ _ h)

theorem release_fold_ownInv (items : List DeferredRelease) :
    ∀ acc : RenderingLayer, OwnershipInv acc →
      OwnershipInv (items.foldl release_deferred acc) := by
  induction items with
  | nil => intro acc h; exact h
  | cons i t ih =>
    intro acc h
    rw [List.foldl_cons]
    exact ih _ (ownInv_ainsert _ _ h)

theorem ownershipInv_cleanup_session (st : RenderingLayer) (s : SessionId)
    (h : OwnershipInv st) : OwnershipInv (cleanup_session_slots st s) :=
  ownInv_filter (fun key => decide (key.session_id ≠ s)) h

theorem ownershipInv_drop (acc : RenderingLayer) (id : MonitorId)
    (h : OwnershipInv acc) : OwnershipInv (drop_monitor acc id) :=
  ownInv_filter (fun key => decide (key.monitor_id ≠ id)) h

theorem ownershipInv_drop_fold (removed : List MonitorId) :
    ∀ acc : RenderingLayer, OwnershipInv acc →
      OwnershipInv (removed.foldl drop_monitor acc) := by
  induction removed with
  | nil => intro acc h; exact h
  | cons i t ih =>
    intro acc h
    rw [List.foldl_cons]
    exact ih _ (ownershipInv_drop _ _ h)

theorem ownershipInv_handle_command (st : RenderingLayer) (cmd : RenderCmd)
    (h : OwnershipInv st) : OwnershipInv (handle_command st cmd).1 := by
  cases cmd with
  | Shutdown => exact h
  | FramebufferLink m s found imported =>
    show OwnershipInv (import_framebuffers st m s found imported)
    unfold import_framebuffers
    split
    · exact h
    · exact install_fold_ownInv imported m s st h
  | SetActiveSession s => exact h
  | SessionRemoved s =>
    show OwnershipInv _
    have h1 := ownershipInv_cleanup_session st s h
    unfold handle_command
    dsimp only
    split
    · exact h1
    · exact h1
  | SwapBuffers m s b f =>
    unfold handle_command
    dsimp only
    split
    · exact h
    · show OwnershipInv (swap_accept st m s b f)
      show ownInv _ _
      rw [swap_accept_slots, swap_accept_ownership]
      exact ownInv_ainsert _ _ h

theorem ownershipInv_step (st : RenderingLayer) (stp : Step)
    (h : OwnershipInv st) : OwnershipInv (applyStep st stp).1 := by
  cases stp with
  | cmd c => exact ownershipInv_handle_command st c h
  | fence key =>
    show OwnershipInv (handle_fence_event st key)
    show ownInv _ _
    rw [handle_fence_event_slots, handle_fence_event_ownership]
    exact h
  | flip =>
    exact release_fold_ownInv st.deferred_releases
      { st with deferred_releases := [] } h
  | hotplug current =>
    exact ownershipInv_drop_fold _ st h

theorem ownershipInv_run (steps : List Step) :
    ∀ st : RenderingLayer, OwnershipInv st →
      OwnershipInv (runState st steps) := by
  induction steps with
  | nil => intro st h; exact h
  | cons stp rest ih =>
    intro st h
    exact ih _ (ownershipInv_step st stp h)

theorem ownershipInv_init (monitors : List MonitorId) :
    OwnershipInv (initState monitors) := by
  intro k hk
  cases hk

/-!
## Deferred-release set invariant
-/

/-- The deferred-release queue never holds duplicates. -/
def DeferredInv (st : RenderingLayer) : Prop :=
  st.deferred_releases.Nodup

theorem deferredInv_handle_command (st : RenderingLayer) (cmd : RenderCmd)
    (h : DeferredInv st) : DeferredInv (handle_command st cmd).1 := by
  cases cmd with
  | Shutdown => exact h
  | FramebufferLink m s found imported =>
    show DeferredInv (import_framebuffers st m s found imported)
    unfold import_framebuffers
    split
    · exact h
    · show (imported.foldl (install_slot m s) st).deferred_releases.Nodup
      rw [install_fold_deferred]
      exact h
  | SetActiveSession s => exact h
  | SessionRemoved s =>
    unfold handle_command
    dsimp only
    have h1 : DeferredInv (cleanup_session_slots st s) := List.Nodup.filter _ h
    split
    · exact h1
    · exact h1
  | SwapBuffers m s b f =>
    unfold handle_command
    dsimp only
    split
    · exact h
    · exact swap_accept_deferred_nodup st m s b f h

theorem deferredInv_step (st : RenderingLayer) (stp : Step)
    (h : DeferredInv st) : DeferredInv (applyStep st stp).1 := by
  cases stp with
  | cmd c => exact deferredInv_handle_command st c h
  | fence key => exact handle_fence_event_deferred_nodup st key h
  | flip =>
    show (process_deferred_releases st).1.deferred_releases.Nodup
    show (st.deferred_releases.foldl release_deferred
      { st with deferred_releases := [] }).deferred_releases.Nodup
    rw [release_fold_deferred]
    exact List.nodup_nil
  | hotplug current =>
    show ((st.known_monitors.filter (fun id => id ∉ current)).foldl
      drop_monitor st).deferred_releases.Nodup
    have : ∀ (removed : List MonitorId) (acc : RenderingLayer),
        DeferredInv acc → DeferredInv (removed.foldl drop_monitor acc) := by
      intro removed
      induction removed with
      | nil => intro acc ha; exact ha
      | cons i t ih =>
        intro acc ha
        rw [List.foldl_cons]
        exact ih _ (List.Nodup.filter _ ha)
    exact this _ st h

theorem deferredInv_run (steps : List Step) :
    ∀ st : RenderingLayer, DeferredInv st →
      DeferredInv (runState st steps) := by
  induction steps with
  | nil => intro st h; exact h
  | cons stp rest ih =>
    intro st h
    exact ih _ (deferredInv_step st stp h)

/-!
## Session cleanliness after `SessionRemoved`
-/

/-- No rendering-layer table mentions session `s`. -/
def sessionClean (s : SessionId) (st : RenderingLayer) : Prop :=
  (∀ k ∈ st.slots, k.session_id ≠ s) ∧
  (∀ p ∈ st.slot_ownership, p.1.session_id ≠ s) ∧
  (∀ p ∈ st.monitor_state, p.1.2 ≠ s) ∧
  (∀ d ∈ st.deferred_releases, d.session_id ≠ s) ∧
  (∀ k ∈ st.fence_tasks, k.session_id ≠ s)

/-- A step that re-links framebuffers for session `s` (the only step that
can re-introduce state for a removed session). -/
def links_session (s : SessionId) : Step → Bool
  | .cmd (.FramebufferLink _ session_id _ _) => session_id = s
  | _ => false

theorem sessionClean_cleanup (st : RenderingLayer) (s : SessionId) :
    sessionClean s (cleanup_session_slots st s) := by
  refine ⟨?_, ?_, ?_, ?_, ?_⟩ <;>
    (intro x hx; simpa using (List.mem_filter.mp hx).2)

theorem alookup_ms_none_of_clean {s : SessionId}
    {m : List ((MonitorId × SessionId) × MonitorSurfaceState)}
    (h : ∀ p ∈ m, p.1.2 ≠ s) (a : MonitorId) : alookup m (a, s) = none := by
  apply alookup_none_of_forall
  intro p hp hcon
  exact h p hp (by rw [hcon])

theorem handle_fence_event_clean (st : RenderingLayer) (key : SlotKey)
    (hk : key.session_id = s) (hc : sessionClean s st) :
    handle_fence_event st key = st := by
  obtain ⟨h1, h2, h3, h4, h5⟩ := hc
  apply handle_fence_event_eq_self
  · intro hmem
    exact h5 key hmem hk
  · intro state hst
    rw [hk, alookup_ms_none_of_clean h3] at hst
    cases hst

theorem sessionClean_cleanup_any (st : RenderingLayer) (s s2 : SessionId)
    (h : sessionClean s st) : sessionClean s (cleanup_session_slots st s2) := by
  obtain ⟨h1, h2, h3, h4, h5⟩ := h
  refine ⟨?_, ?_, ?_, ?_, ?_⟩ <;> intro x hx
  · exact h1 x (List.mem_of_mem_filter hx)
  · exact h2 x (List.mem_of_mem_filter hx)
  · exact h3 x (List.mem_of_mem_filter hx)
  · exact h4 x (List.mem_of_mem_filter hx)
  · exact h5 x (List.mem_of_mem_filter hx)

theorem sessionClean_import (st : RenderingLayer) (m : MonitorId)
    (s s2 : SessionId) (found : Bool) (imported : List BufferSlot)
    (hs : s2 ≠ s) (h : sessionClean s st) :
    sessionClean s (import_framebuffers st m s2 found imported) := by
  obtain ⟨h1, h2, h3, h4, h5⟩ := h
  unfold import_framebuffers
  split
  · exact ⟨h1, h2, h3, h4, h5⟩
  · refine ⟨?_, ?_, ?_, ?_, ?_⟩ <;> intro x hx
    · rcases install_fold_slots_mem imported m s2 st hx with h' | h'
      · rw [h'.2]; exact hs
      · exact h1 x h'
    · rcases install_fold_own_mem imported m s2 st hx with h' | h'
      · rw [h'.2]; exact hs
      · exact h2 x h'
    · rw [install_fold_ms] at hx
      exact h3 x hx
    · rw [install_fold_deferred] at hx
      exact h4 x hx
    · rw [install_fold_fence] at hx
      exact h5 x hx

theorem sessionClean_swap_accept (st : RenderingLayer) (m : MonitorId)
    (s s2 : SessionId) (b : BufferSlot) (f : Bool) (hs : s2 ≠ s)
    (h : sessionClean s st) : sessionClean s (swap_accept st m s2 b f) := by
  obtain ⟨h1, h2, h3, h4, h5⟩ := h
  refine ⟨?_, ?_, ?_, ?_, ?_⟩ <;> intro x hx
  · rw [swap_accept_slots] at hx
    exact h1 x hx
  · rw [swap_accept_ownership] at hx
    rcases mem_ainsert_key hx with h' | h'
    · rw [h']; exact hs
    · exact h2 x h'
  · rcases swap_accept_ms_mem st m s2 b f hx with h' | h'
    · rw [h']; exact hs
    · exact h3 x h'
  · rcases swap_accept_deferred_sub st m s2 b f hx with h' | h'
    · rw [h'.2]; exact hs
    · exact h4 x h'
  · rcases swap_accept_fence_sub st m s2 b f hx with h' | h'
    · rw [h']; exact hs
    · exact h5 x h'

theorem sessionClean_hfe (st : RenderingLayer) (key : SlotKey)
    (s : SessionId) (h : sessionClean s st) :
    sessionClean s (handle_fence_event st key) := by
  by_cases hk : key.session_id = s
  · rw [handle_fence_event_clean st key hk h]
    exact h
  · obtain ⟨h1, h2, h3, h4, h5⟩ := h
    refine ⟨?_, ?_, ?_, ?_, ?_⟩ <;> intro x hx
    · rw [handle_fence_event_slots] at hx
      exact h1 x hx
    · rw [handle_fence_event_ownership] at hx
      exact h2 x hx
    · rcases handle_fence_event_ms_mem st key hx with h' | h'
      · rw [h']; exact hk
      · exact h3 x h'
    · rcases handle_fence_event_deferred_sub st key hx with h' | h'
      · rw [h'.2]; exact hk
      · exact h4 x h'
    · exact h5 x (handle_fence_event_fence_sub st key hx)

theorem sessionClean_flip (st : RenderingLayer) (s : SessionId)
    (h : sessionClean s st) :
    sessionClean s (process_deferred_releases st).1 := by
  obtain ⟨h1, h2, h3, h4, h5⟩ := h
  show sessionClean s (st.deferred_releases.foldl release_deferred
    { st with deferred_releases := [] })
  refine ⟨?_, ?_, ?_, ?_, ?_⟩ <;> intro x hx
  · rw [release_fold_slots] at hx
    exact h1 x hx
  · rcases release_fold_own_mem st.deferred_releases _ hx with ⟨d, hd, hp⟩ | h'
    · rw [hp]; exact h4 d hd
    · exact h2 x h'
  · rw [release_fold_ms] at hx
    exact h3 x hx
  · rw [release_fold_deferred] at hx
    cases hx
  · rw [release_fold_fence] at hx
    exact h5 x hx

theorem sessionClean_drop (acc : RenderingLayer) (id : MonitorId)
    (s : SessionId) (h : sessionClean s acc) :
    sessionClean s (drop_monitor acc id) := by
  obtain ⟨h1, h2, h3, h4, h5⟩ := h
  refine ⟨?_, ?_, ?_, ?_, ?_⟩ <;> intro x hx
  · exact h1 x (List.mem_of_mem_filter hx)
  · exact h2 x (List.mem_of_mem_filter hx)
  · exact h3 x (List.mem_of_mem_filter hx)
  · exact h4 x (List.mem_of_mem_filter hx)
  · exact h5 x (List.mem_of_mem_filter hx)

theorem sessionClean_sync (st : RenderingLayer) (current : List MonitorId)
    (s : SessionId) (h : sessionClean s st) :
    sessionClean s (sync_monitors st current) := by
  show sessionClean s { (st.known_monitors.filter
    (fun id => id ∉ current)).foldl drop_monitor st with
    known_monitors := current }
  have : ∀ (removed : List MonitorId) (acc : RenderingLayer),
      sessionClean s acc →
      sessionClean s (removed.foldl drop_monitor acc) := by
    intro removed
    induction removed with
    | nil => intro acc ha; exact ha
    | cons i t ih =>
      intro acc ha
      rw [List.foldl_cons]
      exact ih _ (sessionClean_drop _ _ _ ha)
  exact this _ st h

/-- No `BufferConsumed` event for session `s` occurs in the list. -/
def noConsume (s : SessionId) (evts : List RenderEvt) : Prop :=
  ∀ e ∈ evts, ∀ m b, e ≠ RenderEvt.BufferConsumed s m b

theorem sessionClean_step (st : RenderingLayer) (stp : Step) (s : SessionId)
    (h : sessionClean s st) (hstp : links_session s stp = false) :
    sessionClean s (applyStep st stp).1 ∧ noConsume s (applyStep st stp).2 := by
  cases stp with
  | cmd c =>
    cases c with
    | Shutdown => exact ⟨h, by intro e he; cases he⟩
    | FramebufferLink m s2 found imported =>
      have hs2 : s2 ≠ s := by
        simpa [links_session] using hstp
      exact ⟨sessionClean_import st m s s2 found imported hs2 h,
        by intro e he; cases he⟩
    | SetActiveSession s2 =>
      exact ⟨h, by intro e he; cases he⟩
    | SessionRemoved s2 =>
      refine ⟨?_, by intro e he; cases he⟩
      have h1 := sessionClean_cleanup_any st s s2 h
      show sessionClean s (handle_command st (.SessionRemoved s2)).1
      unfold handle_command
      dsimp only
      split
      · exact h1
      · exact h1
    | SwapBuffers m s2 b f =>
      show sessionClean s (handle_command st (.SwapBuffers m s2 b f)).1 ∧
        noConsume s (handle_command st (.SwapBuffers m s2 b f)).2
      unfold handle_command
      dsimp only
      split
      · exact ⟨h, by
          intro e he m' b'
          rcases List.mem_singleton.mp he with rfl
          intro hcon
          cases hcon⟩
      · next hcond =>
        have hs2 : s2 ≠ s := by
          intro hcon
          apply hcond
          by_cases hmk : m ∈ st.known_monitors
          · right
            intro hsk
            exact h.1 _ hsk (hcon ▸ rfl)
          · exact Or.inl hmk
        refine ⟨sessionClean_swap_accept st m s s2 b f hs2 h, ?_⟩
        intro e he m' b'
        rcases List.mem_singleton.mp he with rfl
        intro hcon
        cases hcon
  | fence key => exact ⟨sessionClean_hfe st key s h, by intro e he; cases he⟩
  | flip =>
    refine ⟨sessionClean_flip st s h, ?_⟩
    intro e he m' b'
    have he2 : e ∈ st.deferred_releases.map (fun item =>
      RenderEvt.BufferConsumed item.session_id item.monitor_id item.buffer) :=
      he
    rcases List.mem_map.mp he2 with ⟨d, hd, rfl⟩
    intro hcon
    have : d.session_id = s := by
      injection hcon
    exact h.2.2.2.1 d hd this
  | hotplug current =>
    exact ⟨sessionClean_sync st current s h, by intro e he; cases he⟩

theorem sessionClean_run (steps : List Step) (s : SessionId) :
    ∀ st : RenderingLayer, sessionClean s st →
      (∀ stp ∈ steps, links_session s stp = false) →
      sessionClean s (runEvents st steps).1 ∧
        noConsume s (runEvents st steps).2 := by
  induction steps with
  | nil => intro st h _; exact ⟨h, by intro e he; cases he⟩
  | cons stp rest ih =>
    intro st h hsteps
    have hstep := sessionClean_step st stp s h
      (hsteps stp (List.mem_cons_self _ _))
    have hrest := ih (applyStep st stp).1 hstep.1
      (fun x hx => hsteps x (List.mem_cons_of_mem _ hx))
    refine ⟨hrest.1, ?_⟩
    intro e he
    rcases List.mem_append.mp he with he' | he'
    · exact hstep.2 e he'
    · exact hrest.2 e he'

/-!
## Framing lemmas
-/

theorem findNl_append_of_not_mem {h : List Nat} (hn : 10 ∉ h)
    (rest : List Nat) : findNl (h ++ 10 :: rest) = some h.length := by
  induction h with
  | nil => simp [findNl]
  | cons a t ih =>
    have ha : a ≠ 10 := by
      rintro rfl
      exact hn (List.mem_cons_self _ _)
    have ht : 10 ∉ t := fun hm => hn (List.mem_cons_of_mem _ hm)
    simp [findNl, ha, ih ht]

theorem trimEndNl_eq_self {p : List Nat} (hn : 10 ∉ p) : trimEndNl p = p := by
  unfold trimEndNl
  cases hrev : p.reverse with
  | nil =>
    have hp : p = [] := by
      have := congrArg List.reverse hrev
      simpa using this
    simp [hp]
  | cons a t =>
    have ha : a ≠ 10 := by
      intro e
      apply hn
      rw [← List.mem_reverse, hrev]
      exact e ▸ List.mem_cons_self a t
    rw [List.dropWhile_cons]
    rw [if_neg (by simpa using ha)]
    rw [← hrev, List.reverse_reverse]

theorem parse_frame (h p : List Nat) (hnh : 10 ∉ h) (hnp : 10 ∉ p)
    (huh : utf8Valid h = true) (hup : utf8Valid p = true) :
    parse_from_bytes (h ++ 10 :: (p ++ [10])) [] =
      .ok (some (⟨h, if p = [0, 0, 0, 0] then none else some p, []⟩,
        h.length + 1 + p.length + 1)) := by
  have hdrop : (h ++ 10 :: (p ++ [10])).drop (h.length + 1) = p ++ [10] := by
    rw [show h ++ 10 :: (p ++ [10]) = (h ++ [10]) ++ (p ++ [10]) by simp]
    rw [show h.length + 1 = (h ++ [10]).length by simp]
    exact List.drop_left _ _
  have hfind2 : findNl ((h ++ 10 :: (p ++ [10])).drop (h.length + 1))
      = some p.length := by
    rw [hdrop]
    exact findNl_append_of_not_mem hnp []
  have htake : (h ++ 10 :: (p ++ [10])).take h.length = h :=
    List.take_left h _
  have htake2 : ((h ++ 10 :: (p ++ [10])).drop (h.length + 1)).take p.length
      = p := by
    rw [hdrop]
    exact List.take_left p _
  unfold parse_from_bytes
  simp only [findNl_append_of_not_mem hnh, hfind2, htake, htake2]
  unfold from_lines
  rw [if_pos (by rw [huh, hup]; rfl)]
  rfl

theorem serialize_frame (h p : List Nat) (hnp : 10 ∉ p)
    (ht : trimEnd h = h) :
    serialize ⟨h, if p = [0, 0, 0, 0] then none else some p, []⟩
      = h ++ 10 :: (p ++ [10]) := by
  unfold serialize
  dsimp only
  rw [ht]
  by_cases hp : p = [0, 0, 0, 0]
  · rw [if_pos hp]
    subst hp
    rfl
  · rw [if_neg hp]
    dsimp only
    rw [trimEndNl_eq_self hnp]

/-!
## Claim theorems
-/

/-- C1 (counterexample): the claim says a fenced `SwapBuffers` moves the
slot's ownership to `Shift` only on fence signal, and that between
acceptance and the signal the owner is not `Shift`.  On the code, after
linking (monitor 1, session 2) and accepting `SwapBuffers` for slot `Zero`
with an acquire fence, the owner is already `Shift` while the fence task
is still pending and the slot is still only `pending_buffer`. -/
theorem c1_counterexample :
    alookup (runState (initState [1])
      [.cmd (.FramebufferLink 1 2 true [.Zero, .One]),
       .cmd (.SwapBuffers 1 2 .Zero true)]).slot_ownership
      ⟨1, 2, .Zero⟩ = some .Shift ∧
    (⟨1, 2, .Zero⟩ : SlotKey) ∈ (runState (initState [1])
      [.cmd (.FramebufferLink 1 2 true [.Zero, .One]),
       .cmd (.SwapBuffers 1 2 .Zero true)]).fence_tasks ∧
    alookup (runState (initState [1])
      [.cmd (.FramebufferLink 1 2 true [.Zero, .One]),
       .cmd (.SwapBuffers 1 2 .Zero true)]).monitor_state (1, 2)
      = some ⟨none, some .Zero⟩ := by
  decide

/-- C1 (amended): every accepted `SwapBuffers` — with or without an
acquire fence — sets the named slot's ownership to `Shift` immediately at
acceptance (`rendering_layer/mod.rs:737`), and the fence-signal handler
never changes `slot_ownership`: the fence signal only promotes
`pending_buffer` to `current_buffer`. -/
theorem c1_ownership_shift_on_acceptance (st : RenderingLayer)
    (m : MonitorId) (s : SessionId) (b : BufferSlot) (f : Bool)
    (hm : m ∈ st.known_monitors) (hs : (⟨m, s, b⟩ : SlotKey) ∈ st.slots) :
    alookup (handle_command st (.SwapBuffers m s b f)).1.slot_ownership
      ⟨m, s, b⟩ = some .Shift ∧
    ∀ (st' : RenderingLayer) (key : SlotKey),
      (handle_fence_event st' key).slot_ownership = st'.slot_ownership := by
  constructor
  · unfold handle_command
    dsimp only
    rw [if_neg (by push_neg; exact ⟨hm, hs⟩)]
    dsimp only
    rw [swap_accept_ownership]
    exact alookup_ainsert_self _ _ _
  · exact fun st' key => handle_fence_event_ownership st' key

/-- C1 (witness). -/
theorem c1_witness :
    1 ∈ (runState (initState [1])
      [.cmd (.FramebufferLink 1 2 true [.Zero, .One])]).known_monitors ∧
    (⟨1, 2, .Zero⟩ : SlotKey) ∈ (runState (initState [1])
      [.cmd (.FramebufferLink 1 2 true [.Zero, .One])]).slots ∧
    alookup (handle_command (runState (initState [1])
        [.cmd (.FramebufferLink 1 2 true [.Zero, .One])])
      (.SwapBuffers 1 2 .Zero true)).1.slot_ownership
      ⟨1, 2, .Zero⟩ = some .Shift :=
  ⟨by decide, by decide,
    (c1_ownership_shift_on_acceptance _ 1 2 .Zero true
      (by decide) (by decide)).1⟩

/-- C2: a `SwapBuffers` whose monitor is unknown or whose slot is not in
the slot table is rejected: the handler returns the state entirely
unchanged and emits exactly one `BufferRequestRejected` with reason
`unknown_monitor` when the monitor is unknown and `unlinked_buffer`
otherwise; no `BufferRequestAck` is emitted. -/
theorem c2_swap_rejection (st : RenderingLayer) (m : MonitorId)
    (s : SessionId) (b : BufferSlot) (f : Bool)
    (h : m ∉ st.known_monitors ∨ (⟨m, s, b⟩ : SlotKey) ∉ st.slots) :
    handle_command st (.SwapBuffers m s b f) =
      (st, [.BufferRequestRejected s m b
        (if m ∉ st.known_monitors then "unknown_monitor"
         else "unlinked_buffer")]) := by
  unfold handle_command
  dsimp only
  rw [if_pos h]

/-- C2 (witness). -/
theorem c2_witness :
    (5 ∉ (initState [1]).known_monitors ∨
      (⟨5, 2, BufferSlot.Zero⟩ : SlotKey) ∉ (initState [1]).slots) ∧
    handle_command (initState [1]) (.SwapBuffers 5 2 .Zero false) =
      ((initState [1]), [.BufferRequestRejected 2 5 .Zero
        (if 5 ∉ (initState [1]).known_monitors then "unknown_monitor"
         else "unlinked_buffer")]) :=
  ⟨by decide, c2_swap_rejection (initState [1]) 5 2 .Zero false (by decide)⟩

/-- C3: an accepted `SwapBuffers` without an acquire fence immediately
promotes the slot — afterwards the `(monitor, session)` surface state is
`current_buffer = slot, pending_buffer = none` — emits exactly the
`BufferRequestAck (session, monitor, buffer)`, and if a different
previous `current_buffer` existed it ends up queued for deferred
release. -/
theorem c3_unfenced_promotion (st : RenderingLayer) (m : MonitorId)
    (s : SessionId) (b : BufferSlot)
    (hm : m ∈ st.known_monitors) (hs : (⟨m, s, b⟩ : SlotKey) ∈ st.slots) :
    alookup (handle_command st (.SwapBuffers m s b false)).1.monitor_state
      (m, s) = some ⟨some b, none⟩ ∧
    (handle_command st (.SwapBuffers m s b false)).2
      = [.BufferRequestAck s m b] ∧
    ∀ prev : BufferSlot,
      ((alookup st.monitor_state (m, s)).getD ⟨none, none⟩).current_buffer
        = some prev → prev ≠ b →
      (⟨m, s, prev⟩ : DeferredRelease) ∈
        (handle_command st (.SwapBuffers m s b false)).1.deferred_releases := by
  have hacc : handle_command st (.SwapBuffers m s b false)
      = (swap_accept st m s b false, [.BufferRequestAck s m b]) := by
    unfold handle_command
    dsimp only
    rw [if_neg (by push_neg; exact ⟨hm, hs⟩)]
  rw [hacc]
  exact ⟨swap_accept_ms_nofence st m s b, rfl,
    fun prev hprev hne => swap_accept_deferred_prev st m s b prev hprev hne⟩

/-- C3 (witness). -/
theorem c3_witness :
    1 ∈ (runState (initState [1])
      [.cmd (.FramebufferLink 1 2 true [.Zero, .One])]).known_monitors ∧
    (⟨1, 2, .Zero⟩ : SlotKey) ∈ (runState (initState [1])
      [.cmd (.FramebufferLink 1 2 true [.Zero, .One])]).slots ∧
    alookup (handle_command (runState (initState [1])
        [.cmd (.FramebufferLink 1 2 true [.Zero, .One])])
      (.SwapBuffers 1 2 .Zero false)).1.monitor_state (1, 2)
      = some ⟨some .Zero, none⟩ :=
  ⟨by decide, by decide,
    (c3_unfenced_promotion _ 1 2 .Zero (by decide) (by decide)).1⟩

/-- C4: once `SessionRemoved s` has been processed, delivering the signal
of a fence for any slot of session `s` leaves the state exactly unchanged
(the fence task was cancelled and the session's surface state purged),
and no later step that does not re-link framebuffers for `s` can emit a
`BufferConsumed` for session `s`. -/
theorem c4_session_removed_fence_suppressed (st : RenderingLayer)
    (s : SessionId) (key : SlotKey) (steps : List Step)
    (hk : key.session_id = s)
    (hsteps : ∀ stp ∈ steps, links_session s stp = false) :
    handle_fence_event (handle_command st (.SessionRemoved s)).1 key
      = (handle_command st (.SessionRemoved s)).1 ∧
    noConsume s
      (runEvents (handle_command st (.SessionRemoved s)).1 steps).2 := by
  have hclean : sessionClean s (handle_command st (.SessionRemoved s)).1 := by
    unfold handle_command
    dsimp only
    split
    · exact sessionClean_cleanup st s
    · exact sessionClean_cleanup st s
  exact ⟨handle_fence_event_clean _ key hk hclean,
    (sessionClean_run steps s _ hclean hsteps).2⟩

/-- C4 (witness). -/
theorem c4_witness :
    (⟨1, 2, BufferSlot.Zero⟩ : SlotKey).session_id = 2 ∧
    handle_fence_event (handle_command (runState (initState [1])
        [.cmd (.FramebufferLink 1 2 true [.Zero, .One]),
         .cmd (.SwapBuffers 1 2 .Zero true)])
      (.SessionRemoved 2)).1 ⟨1, 2, .Zero⟩
      = (handle_command (runState (initState [1])
        [.cmd (.FramebufferLink 1 2 true [.Zero, .One]),
         .cmd (.SwapBuffers 1 2 .Zero true)])
      (.SessionRemoved 2)).1 :=
  ⟨rfl,
    (c4_session_removed_fence_suppressed _ 2 ⟨1, 2, .Zero⟩
      [.flip, .fence ⟨1, 2, .Zero⟩] rfl (by decide)).1⟩

/-- C5: in every state reachable from an initial state by commands,
fence signals, deferred-release processing and hot-plug reconciliation,
every key of the slot table has exactly one owner entry, and that owner
is `Client` or `Shift`. -/
theorem c5_ownership_exclusive (monitors : List MonitorId)
    (steps : List Step) (k : SlotKey)
    (hk : k ∈ (runState (initState monitors) steps).slots) :
    ∃ o : SlotOwner,
      ownersOf (runState (initState monitors) steps).slot_ownership k
        = [o] ∧ (o = .Client ∨ o = .Shift) := by
  obtain ⟨o, ho⟩ := ownershipInv_run steps (initState monitors)
    (ownershipInv_init monitors) k hk
  refine ⟨o, ho, ?_⟩
  cases o
  · exact Or.inl rfl
  · exact Or.inr rfl

/-- C5 (witness). -/
theorem c5_witness :
    (⟨1, 2, BufferSlot.Zero⟩ : SlotKey) ∈ (runState (initState [1])
      [.cmd (.FramebufferLink 1 2 true [.Zero])]).slots ∧
    ∃ o : SlotOwner,
      ownersOf (runState (initState [1])
        [.cmd (.FramebufferLink 1 2 true [.Zero])]).slot_ownership
        ⟨1, 2, .Zero⟩ = [o] ∧ (o = .Client ∨ o = .Shift) :=
  ⟨by decide,
    c5_ownership_exclusive [1] [.cmd (.FramebufferLink 1 2 true [.Zero])]
      ⟨1, 2, .Zero⟩ (by decide)⟩

/-- C6: the deferred-release queue has set semantics — queueing an
already-queued `(monitor, session, buffer)` leaves the queue (indeed the
whole state) unchanged; in any reachable state one page-flip cycle emits
at most one `BufferConsumed` per slot; and processing the deferred
releases hands each queued slot's ownership back to `Client`. -/
theorem c6_deferred_set_semantics :
    (∀ (st : RenderingLayer) (m : MonitorId) (s : SessionId)
      (b : BufferSlot),
      (⟨m, s, b⟩ : DeferredRelease) ∈ st.deferred_releases →
      queue_buffer_release st m s b = st) ∧
    (∀ (monitors : List MonitorId) (steps : List Step) (e : RenderEvt),
      ((process_deferred_releases
        (runState (initState monitors) steps)).2).count e ≤ 1) ∧
    (∀ (st : RenderingLayer) (d : DeferredRelease),
      d ∈ st.deferred_releases →
      alookup (process_deferred_releases st).1.slot_ownership
        ⟨d.monitor_id, d.session_id, d.buffer⟩ = some .Client) := by
  refine ⟨queue_eq_self_of_mem, ?_, ?_⟩
  · intro monitors steps e
    have hnd : (runState (initState monitors)
        steps).deferred_releases.Nodup :=
      deferredInv_run steps _ List.nodup_nil
    have hinj : Function.Injective (fun item : DeferredRelease =>
        RenderEvt.BufferConsumed item.session_id item.monitor_id
          item.buffer) := by
      intro a b hab
      cases a
      cases b
      injection hab with h1 h2 h3
      subst h1
      subst h2
      subst h3
      rfl
    have hev : ((process_deferred_releases
        (runState (initState monitors) steps)).2).Nodup :=
      hnd.map hinj
    exact List.nodup_iff_count_le_one.mp hev e
  · intro st d hd
    exact release_fold_client st.deferred_releases _ hd

/-- C6 (witness). -/
theorem c6_witness :
    ((⟨1, 2, BufferSlot.Zero⟩ : DeferredRelease) ∈
      (queue_buffer_release (initState [1]) 1 2 .Zero).deferred_releases) ∧
    queue_buffer_release (queue_buffer_release (initState [1]) 1 2 .Zero)
      1 2 .Zero = queue_buffer_release (initState [1]) 1 2 .Zero ∧
    alookup (process_deferred_releases
      (queue_buffer_release (initState [1]) 1 2 .Zero)).1.slot_ownership
      ⟨1, 2, .Zero⟩ = some .Client :=
  ⟨by decide,
    c6_deferred_set_semantics.1 _ 1 2 .Zero (by decide),
    c6_deferred_set_semantics.2.2 _ ⟨1, 2, .Zero⟩ (by decide)⟩

/-- C7 (counterexample): the claim says serialize ∘ parse_from_bytes is
the identity on every valid frame (two newline-terminated lines, no
trailing garbage).  The frame `"a \nb\n"` (header line with a trailing
space) is valid and parses fully, but `serialize` trims the header's
trailing whitespace, so the round trip returns `"a\nb\n"` ≠ the input. -/
theorem c7_counterexample :
    parse_from_bytes [97, 32, 10, 98, 10] [] =
      .ok (some (⟨[97, 32], some [98], []⟩, 5)) ∧
    serialize ⟨[97, 32], some [98], []⟩ = [97, 10, 98, 10] ∧
    [97, 10, 98, 10] ≠ [97, 32, 10, 98, 10] :=
  ⟨rfl, rfl, by decide⟩

/-- C7 (amended): for every valid frame byte string whose header line
carries no trailing whitespace (one header line and one payload line,
each newline-terminated, valid UTF-8, no trailing garbage),
`parse_from_bytes` consumes it exactly and `serialize` of the result
yields the original bytes; the literal payload line `\0\0\0\0` parses to
`payload = none` and serializes back to the four NUL bytes. -/
theorem c7_round_trip (h p : List Nat) (hnh : 10 ∉ h) (hnp : 10 ∉ p)
    (huh : utf8Valid h = true) (hup : utf8Valid p = true)
    (ht : trimEnd h = h) :
    parse_from_bytes (h ++ 10 :: (p ++ [10])) [] =
      .ok (some (⟨h, if p = [0, 0, 0, 0] then none else some p, []⟩,
        h.length + 1 + p.length + 1)) ∧
    serialize ⟨h, if p = [0, 0, 0, 0] then none else some p, []⟩
      = h ++ 10 :: (p ++ [10]) :=
  ⟨parse_frame h p hnh hnp huh hup, serialize_frame h p hnp ht⟩

/-- C7 (witness): the frame `"hi\n\0\0\0\0\n"`. -/
theorem c7_witness :
    parse_from_bytes ([104, 105] ++ 10 :: ([0, 0, 0, 0] ++ [10])) [] =
      .ok (some (⟨[104, 105],
        if ([0, 0, 0, 0] : List Nat) = [0, 0, 0, 0] then none
        else some [0, 0, 0, 0], []⟩,
        ([104, 105] : List Nat).length + 1 +
          ([0, 0, 0, 0] : List Nat).length + 1)) ∧
    serialize ⟨[104, 105],
        if ([0, 0, 0, 0] : List Nat) = [0, 0, 0, 0] then none
        else some [0, 0, 0, 0], []⟩
      = [104, 105] ++ 10 :: ([0, 0, 0, 0] ++ [10]) :=
  c7_round_trip [104, 105] [0, 0, 0, 0] (by decide) (by decide)
    (by decide) (by decide) (by decide)

/-- C8 (counterexample): the claim says exactly the values `0`, `false`,
`off`, `no` parse to `false` and any other value parses to `true`; but
`env_bool` lowercases (and trims) the value first, so `"FALSE"` — which
is none of those four values — also parses to `false`. -/
theorem c8_counterexample :
    tap_to_click (some "FALSE") = false ∧
    ("FALSE" : String) ≠ "0" ∧ ("FALSE" : String) ≠ "false" ∧
    ("FALSE" : String) ≠ "off" ∧ ("FALSE" : String) ≠ "no" := by
  refine ⟨by decide, by decide, by decide, by decide, by decide⟩

/-- C8 (amended): `SHIFT_INPUT_TAP_TO_CLICK`, `SHIFT_INPUT_TAP_DRAG` and
`SHIFT_INPUT_TAP_DRAG_LOCK` default to `true`, `true` and `false` when
unset; when set, the value is trimmed of surrounding whitespace and
ASCII-lowercased, and then exactly `0`, `false`, `off`, `no` parse to
`false` while any other value parses to `true` (identically for all
three variables). -/
theorem c8_env_bool :
    (tap_to_click none = true ∧ tap_drag none = true ∧
      tap_drag_lock none = false) ∧
    (∀ v : String,
      (tap_to_click (some v) = false ↔
        (normalizeEnvValue v = "0".toList ∨
         normalizeEnvValue v = "false".toList ∨
         normalizeEnvValue v = "off".toList ∨
         normalizeEnvValue v = "no".toList)) ∧
      tap_drag (some v) = tap_to_click (some v) ∧
      tap_drag_lock (some v) = tap_to_click (some v)) := by
  refine ⟨⟨rfl, rfl, rfl⟩, ?_⟩
  intro v
  refine ⟨?_, rfl, rfl⟩
  show (env_bool (some v) true = false ↔ _)
  unfold env_bool
  constructor
  · intro hf
    by_contra hcon
    simp only [hcon, decide_False, Bool.not_false] at hf
    cases hf
  · intro hor
    simp only [hor, decide_True, Bool.not_true]

/-- C9: after each call to the presenter's per-frame transition
resolution, the `ActiveTransition` state is present iff the snapshot
carried a transition with progress < 1; when present, it continues the
stored timeline exactly when the stored kind equals the resolved kind and
is recreated (fresh timeline) otherwise; it is discarded whenever the
snapshot has no transition or its progress is ≥ 1. -/
theorem c9_transition_lifecycle (active : Option ActiveTransition)
    (transition : Option RenderTransition) :
    ((transition_context active transition).1.isSome ↔
      ∃ t, transition = some t ∧ t.progress < 1) ∧
    (∀ t, transition = some t → t.progress < 1 →
      (transition_context active transition).1 =
        some ((match active with
          | some existing =>
            if existing.transition = resolve_transition t.animation then
              existing
            else ActiveTransition.new (resolve_transition t.animation)
          | none =>
            ActiveTransition.new (resolve_transition t.animation)).frame
          t.progress) ∧
      (transition_context active transition).2
        = some (resolve_transition t.animation)) ∧
    ((transition = none ∨ ∃ t, transition = some t ∧ 1 ≤ t.progress) →
      (transition_context active transition).1 = none) := by
  cases transition with
  | none =>
    refine ⟨?_, ?_, ?_⟩
    · simp [transition_context]
    · intro t ht
      cases ht
    · intro
      rfl
  | some t =>
    by_cases hp : t.progress ≥ 1
    · refine ⟨?_, ?_, ?_⟩
      · constructor
        · intro hcon
          simp [transition_context, if_pos hp] at hcon
        · rintro ⟨t', ht', hlt⟩
          injection ht' with e
          subst e
          exact absurd hlt (not_lt.mpr hp)
      · intro t' ht' hlt
        injection ht' with e
        subst e
        exact absurd hlt (not_lt.mpr hp)
      · intro
        simp [transition_context, if_pos hp]
    · have hlt : t.progress < 1 := lt_of_not_ge hp
      refine ⟨?_, ?_, ?_⟩
      · have h2 : (transition_context active (some t)).1.isSome := by
          simp only [transition_context, if_neg hp]
          cases active with
          | none => simp
          | some existing =>
            by_cases he : existing.transition = resolve_transition t.animation
              <;> simp [he]
        exact ⟨fun _ => ⟨t, rfl, hlt⟩, fun _ => h2⟩
      · intro t' ht' _
        injection ht' with e
        subst e
        simp only [transition_context, if_neg hp]
        cases active with
        | none => simp
        | some existing =>
          by_cases he : existing.transition = resolve_transition t.animation
            <;> simp [he]
      · rintro (hcon | ⟨t', ht', hge⟩)
        · cases hcon
        · injection ht' with e
          subst e
          exact absurd hge (not_le.mpr hlt)

/-- C9 (witness). -/
theorem c9_witness :
    (transition_context none
      (some ⟨"blur", (1 : ℚ)/2, none⟩)).1.isSome ∧
    (transition_context none (some ⟨"blur", (1 : ℚ)/2, none⟩)).2
      = some (resolve_transition "blur") :=
  ⟨(c9_transition_lifecycle none (some ⟨"blur", (1 : ℚ)/2, none⟩)).1.mpr
      ⟨_, rfl, by norm_num⟩,
    ((c9_transition_lifecycle none (some ⟨"blur", (1 : ℚ)/2, none⟩)).2.1
      _ rfl (by norm_num)).2⟩

/-- C10: an accepted `SwapBuffers` without acquire fence for a slot that
is itself the pending buffer of the same `(monitor, session)` pair
cancels that slot's fence wait and promotes the slot immediately; a
later delivery of the old fence's signal leaves the state exactly
unchanged (`pending_buffer` is `none`, so no promotion or release
occurs). -/
theorem c10_unfenced_overrides_pending (st : RenderingLayer)
    (m : MonitorId) (s : SessionId) (b : BufferSlot)
    (state0 : MonitorSurfaceState)
    (hm : m ∈ st.known_monitors) (hs : (⟨m, s, b⟩ : SlotKey) ∈ st.slots)
    (hfence : (⟨m, s, b⟩ : SlotKey) ∈ st.fence_tasks)
    (hstate : alookup st.monitor_state (m, s) = some state0)
    (hpend : state0.pending_buffer = some b) :
    (⟨m, s, b⟩ : SlotKey)
      ∉ (handle_command st (.SwapBuffers m s b false)).1.fence_tasks ∧
    alookup (handle_command st (.SwapBuffers m s b false)).1.monitor_state
      (m, s) = some ⟨some b, none⟩ ∧
    (handle_command st (.SwapBuffers m s b false)).2
      = [.BufferRequestAck s m b] ∧
    handle_fence_event (handle_command st (.SwapBuffers m s b false)).1
      ⟨m, s, b⟩ = (handle_command st (.SwapBuffers m s b false)).1 := by
  have hacc : handle_command st (.SwapBuffers m s b false)
      = (swap_accept st m s b false, [.BufferRequestAck s m b]) := by
    unfold handle_command
    dsimp only
    rw [if_neg (by push_neg; exact ⟨hm, hs⟩)]
  rw [hacc]
  refine ⟨swap_accept_fence_notmem st m s b,
    swap_accept_ms_nofence st m s b, rfl, ?_⟩
  apply handle_fence_event_eq_self
  · exact swap_accept_fence_notmem st m s b
  · intro state hst
    rw [swap_accept_ms_nofence] at hst
    injection hst with he
    rw [← he]
    simp

/-- C10 (witness). -/
theorem c10_witness :
    (⟨1, 2, BufferSlot.Zero⟩ : SlotKey)
      ∉ (handle_command (runState (initState [1])
        [.cmd (.FramebufferLink 1 2 true [.Zero, .One]),
         .cmd (.SwapBuffers 1 2 .Zero true)])
        (.SwapBuffers 1 2 .Zero false)).1.fence_tasks ∧
    alookup (handle_command (runState (initState [1])
        [.cmd (.FramebufferLink 1 2 true [.Zero, .One]),
         .cmd (.SwapBuffers 1 2 .Zero true)])
        (.SwapBuffers 1 2 .Zero false)).1.monitor_state (1, 2)
      = some ⟨some .Zero, none⟩ := by
  have h := c10_unfenced_overrides_pending (runState (initState [1])
      [.cmd (.FramebufferLink 1 2 true [.Zero, .One]),
       .cmd (.SwapBuffers 1 2 .Zero true)])
    1 2 .Zero ⟨none, some .Zero⟩ (by decide) (by decide) (by decide)
    (by decide) (by decide)
  exact ⟨h.1, h.2.1⟩

end Shift
